import Mathlib

/-!
Verification of the BattleScribe XML-to-JSON transformation pipeline:
the schema-less XML normalizer (`convert_xml.py`) and the entity
extractor (`transform_battlescribe.py`).

Python dictionaries are modelled as insertion-ordered association lists
with unique keys; the dynamic value universe produced by the normalizer
(str / dict / list) is the inductive type `SSV`.  Extractor code that can
raise a Python exception (AttributeError, TypeError, KeyError) is
modelled in the `Except String` monad; the error payload records the
exception class.  Python string primitives (strip, replace, split,
startswith, substring containment) are modelled by structural functions
over `List Char` so that every definition evaluates inside the kernel.
-/

set_option autoImplicit false

/-- Python `str.strip()`: removes leading and trailing whitespace
(the source only ever strips ASCII whitespace in practice). -/
def pyStrip (s : String) : String :=
  ⟨((s.toList.dropWhile Char.isWhitespace).reverse.dropWhile Char.isWhitespace).reverse⟩

/-- Python `str.startswith(pre)`. -/
def pyStartsWith (s pre : String) : Bool :=
  pre.toList.isPrefixOf s.toList

/-- Fuel-driven worker for `pyReplace`; the fuel starts at the length of
the subject string, which suffices because each step consumes at least
one character when the pattern is nonempty. -/
def pyReplaceAux (pat rep : List Char) : Nat → List Char → List Char
  | 0, s => s
  | _ + 1, [] => []
  | fuel + 1, c :: cs =>
      if pat.isPrefixOf (c :: cs) then
        rep ++ pyReplaceAux pat rep fuel ((c :: cs).drop pat.length)
      else
        c :: pyReplaceAux pat rep fuel cs

/-- Python `s.replace(pat, rep)` for a nonempty pattern: replaces every
(non-overlapping, leftmost-first) occurrence.  The source only replaces
the two fixed nonempty namespace prefixes. -/
def pyReplace (s pat rep : String) : String :=
  if pat.toList = [] then s
  else ⟨pyReplaceAux pat.toList rep.toList s.toList.length s.toList⟩

/-- Python substring containment `needle in hay` for strings. -/
def pyInStrAux : List Char → List Char → Bool
  | s, pat =>
      if pat.isPrefixOf s then true
      else match s with
           | [] => false
           | _ :: rest => pyInStrAux rest pat

/-- Python `needle in hay` on strings (substring test). -/
def pyInStr (needle hay : String) : Bool :=
  pyInStrAux hay.toList needle.toList

/-- Python `s.split(sep)` for a single-character separator (the source
splits weapon keywords on `","`). -/
def pySplitAux (sep : Char) : List Char → List (List Char)
  | [] => [[]]
  | c :: cs =>
      if c = sep then [] :: pySplitAux sep cs
      else match pySplitAux sep cs with
           | [] => [[c]]
           | h :: t => (c :: h) :: t

/-- Python `s.split(",")`. -/
def pySplitComma (s : String) : List String :=
  (pySplitAux (Char.ofNat 44) s.toList).map (fun cs => ⟨cs⟩)

/-- Semi-structured value: the output universe of `parse_xml_to_dict`.
A Python `str` is `scalar`, a `dict` is `record` (insertion-ordered
association list with unique keys), a `list` is `list`. -/
inductive SSV where
  | scalar : String → SSV
  | record : List (String × SSV) → SSV
  | list : List SSV → SSV

/-- An XML element: tag, attributes (unique keys, document order),
children (document order) and its own text (`element.text`; Python
`None` is modelled as the empty string, which the source treats
identically because both are falsy). -/
inductive XmlElement where
  | elem (tag : String) (attrib : List (String × String))
         (children : List XmlElement) (text : String)

def XmlElement.tag : XmlElement → String
  | .elem t _ _ _ => t

def XmlElement.attrib : XmlElement → List (String × String)
  | .elem _ a _ _ => a

def XmlElement.children : XmlElement → List XmlElement
  | .elem _ _ c _ => c

def XmlElement.text : XmlElement → String
  | .elem _ _ _ t => t

/-- First-match lookup in an insertion-ordered association list
(Python `d[k]` / `k in d`; keys are unique by construction). -/
def lookupA {α : Type} : List (String × α) → String → Option α
  | [], _ => none
  | (k, v) :: fs, key => if k = key then some v else lookupA fs key

/-- Python `d[k] = v`: overwrite in place if the key exists, else append
(dicts preserve insertion order and keep the original position on
overwrite). -/
def setA {α : Type} : List (String × α) → String → α → List (String × α)
  | [], key, v => [(key, v)]
  | (k, w) :: fs, key, v =>
      if k = key then (key, v) :: fs else (k, w) :: setA fs key v

/-- In-place modification of the value stored under an existing key
(Python `d[k].append(...)` style mutation). -/
def updateA {α : Type} : List (String × α) → String → (α → α) → List (String × α)
  | [], _, _ => []
  | (k, w) :: fs, key, f =>
      if k = key then (k, f w) :: fs else (k, w) :: updateA fs key f

/-- `clean_tag_name` from convert_xml.py: strips the two known
namespace URI prefixes (Python `str.replace` replaces every
occurrence; the guard checks only the front). -/
def clean_tag_name (tag : String) : String :=
  if pyStartsWith tag "\x7bhttp://www.battlescribe.net/schema/gameSystemSchema\x7d" then
    pyReplace tag "\x7bhttp://www.battlescribe.net/schema/gameSystemSchema\x7d" ""
  else if pyStartsWith tag "\x7bhttp://www.battlescribe.net/schema/catalogueSchema\x7d" then
    pyReplace tag "\x7bhttp://www.battlescribe.net/schema/catalogueSchema\x7d" ""
  else tag

/-- One step of the child-merging loop in `parse_xml_to_dict`
(convert_xml.py lines 30-36): a fresh tag is appended, a repeated tag
coalesces the existing value into a list and appends. -/
def addChild (fs : List (String × SSV)) (k : String) (v : SSV) : List (String × SSV) :=
  match lookupA fs k with
  | none => fs ++ [(k, v)]
  | some (SSV.list xs) => setA fs k (SSV.list (xs ++ [v]))
  | some w => setA fs k (SSV.list [w, v])

/-- Folds a list of already-normalized `(tag, value)` child pairs into a
record, in document order. -/
def addChildren (fs : List (String × SSV)) : List (String × SSV) → List (String × SSV)
  | [] => fs
  | (k, v) :: ps => addChildren (addChild fs k v) ps

mutual

/-- `parse_xml_to_dict` from convert_xml.py: attributes become scalar
fields, children are merged under their cleaned tag with list
coalescing, then non-blank stripped text is stored under `_text` (when
the record has fields) or replaces the whole value (when it has none). -/
def parse_xml_to_dict : XmlElement → SSV
  | XmlElement.elem _ attrib children text =>
      let base := attrib.map (fun p => (p.1, SSV.scalar p.2))
      let fields := addChildren base (childPairs children)
      if pyStrip text = "" then SSV.record fields
      else match fields with
           | [] => SSV.scalar (pyStrip text)
           | f :: fs => SSV.record (setA (f :: fs) "_text" (SSV.scalar (pyStrip text)))
termination_by structural e => e

/-- The `(clean_tag, parsed child)` pairs of a child list, in order. -/
def childPairs : List XmlElement → List (String × SSV)
  | [] => []
  | c :: cs => (clean_tag_name c.tag, parse_xml_to_dict c) :: childPairs cs
termination_by structural cs => cs

end

/-! ## Dynamic-Python primitives used by the extractor -/

/-- Python `key in data` as used by `find_key_with_prefix` and the bare
`in` checks of transform_battlescribe.py: key membership on a dict,
substring containment on a str, element membership on a list (a string
only ever equals a scalar element). -/
def pyContains (v : SSV) (key : String) : Bool :=
  match v with
  | SSV.record fs => (lookupA fs key).isSome
  | SSV.scalar s => pyInStr key s
  | SSV.list xs => xs.any (fun x => match x with
      | SSV.scalar s => s = key
      | _ => false)

/-- Python `data[key]`: KeyError on a dict without the key, TypeError
when indexing a str or list with a string. -/
def pyIndex (v : SSV) (key : String) : Except String SSV :=
  match v with
  | SSV.record fs =>
      match lookupA fs key with
      | some x => Except.ok x
      | none => Except.error "KeyError"
  | _ => Except.error "TypeError"

/-- Python `data.get(key, default)`: AttributeError unless `data` is a
dict. -/
def pyGet (v : SSV) (key : String) (dflt : SSV) : Except String SSV :=
  match v with
  | SSV.record fs => Except.ok ((lookupA fs key).getD dflt)
  | _ => Except.error "AttributeError"

/-- Python `data.get(key)` (default `None`): AttributeError unless
`data` is a dict. -/
def pyGetOpt (v : SSV) (key : String) : Except String (Option SSV) :=
  match v with
  | SSV.record fs => Except.ok (lookupA fs key)
  | _ => Except.error "AttributeError"

/-- The ubiquitous coercion `x if isinstance(x, list) else [x]`. -/
def asPyList (v : SSV) : List SSV :=
  match v with
  | SSV.list xs => xs
  | x => [x]

/-- Python truthiness of a parsed value: nonempty str, dict or list. -/
def pyTruthy (v : SSV) : Bool :=
  match v with
  | SSV.scalar s => !(s = "")
  | SSV.record [] => false
  | SSV.record (_ :: _) => true
  | SSV.list [] => false
  | SSV.list (_ :: _) => true

/-- `find_key_with_prefix` from transform_battlescribe.py (line 25):
returns the key itself when `key_name in data`, else `None`.  (The
namespace-prefix search is vestigial: keys are already stripped.) -/
def find_key (data : SSV) (key_name : String) : Option String :=
  if pyContains data key_name then some key_name else none

/-! ## Extractor output shapes (the literal dicts built by the source) -/

/-- One entry of `abilities["other"]`.  The description is whatever value
`.get` produced (always a str on non-crashing runs for `name`, but the
description is stored unchecked). -/
structure OtherAbility where
  name : String
  description : SSV
  showAbility : Bool
  showDescription : Bool

/-- The constant `abilities["damaged"]` block. -/
structure DamagedInfo where
  description : String
  range : String
  showDamagedAbility : Bool
  showDescription : Bool

/-- The constant `abilities["invul"]` block. -/
structure InvulInfo where
  info : String
  showAtTop : Bool
  showInfo : Bool
  showInvulnerableSave : Bool
  value : String

/-- The `abilities` dict built by `extract_abilities`. -/
structure AbilitySet where
  core : List String
  faction : List String
  other : List OtherAbility
  special : List String
  wargear : List String
  primarch : List String
  damaged : DamagedInfo
  invul : InvulInfo

/-- The initial `abilities` literal of transform_battlescribe.py lines
101-121. -/
def initAbilities : AbilitySet where
  core := []
  faction := ["Oath of Moment"]
  other := []
  special := []
  wargear := []
  primarch := []
  damaged := { description := "", range := "", showDamagedAbility := false, showDescription := true }
  invul := { info := "", showAtTop := true, showInfo := false, showInvulnerableSave := true, value := "5+" }

/-- One row of `extract_stats`: the characteristic fields are only
present when the matching characteristic was found. -/
structure StatRow where
  active : Bool
  name : SSV
  showName : Bool
  showDamagedMarker : Bool
  m : Option SSV := none
  t : Option SSV := none
  sv : Option SSV := none
  w : Option SSV := none
  ld : Option SSV := none
  oc : Option SSV := none

/-- One weapon profile dict of `extract_weapons`; optional fields are
only present when the matching characteristic was found. -/
structure WeaponProfile where
  active : Bool
  name : String
  range : Option SSV := none
  attacks : Option SSV := none
  skill : Option SSV := none
  strength : Option SSV := none
  ap : Option SSV := none
  damage : Option SSV := none
  keywords : Option (List String) := none

/-- One value of the `weapon_groups` dict. -/
structure WeaponGroup where
  active : Bool
  profiles : List WeaponProfile

/-- One row of `extract_points`. -/
structure PointRow where
  name : String
  model : String
  cost : SSV

/-! ## Monadic plumbing for Python exceptions -/

/-- Sequencing of possibly-raising Python steps. -/
def ebind {α β : Type} (x : Except String α) (f : α → Except String β) : Except String β :=
  match x with
  | Except.ok a => f a
  | Except.error e => Except.error e

/-- A Python `for` loop threading mutable state, where the body may
raise. -/
def efoldl {α σ : Type} (f : σ → α → Except String σ) : σ → List α → Except String σ
  | s, [] => Except.ok s
  | s, a :: l => ebind (f s a) fun s1 => efoldl f s1 l

/-! ## Shared-rule registry loader (transform_battlescribe.py 29-66) -/

/-- The hard-coded fallback registry of `load_shared_rules`
(transform_battlescribe.py lines 58-66). -/
def default_shared_rules : List String :=
  ["Leader", "Pistol", "Hazardous", "Devastating Wounds", "Assault",
   "Extra Attacks", "Twin-linked", "Anti-", "Sustained Hits", "Heavy",
   "Melta", "Feel No Pain", "Blast", "Precision", "Indirect Fire",
   "Lance", "Lethal Hits", "Ignores Cover", "Rapid Fire", "Torrent",
   "Scouts", "Infiltrators", "Deep Strike", "Deadly Demise", "Stealth",
   "Super-Heavy Walker", "Lone Operative", "Hover", "Fights First",
   "Psychic", "Firing Deck", "One Shot"]

/-- `load_json_file`: returns the parsed document, or an empty dict
after catching ANY failure to locate or parse the file (the `except`
branch prints and returns `{}`).  The file system is abstracted as
`Option SSV`: `none` means the file cannot be located or parsed. -/
def load_json_file (fileContent : Option SSV) : SSV :=
  match fileContent with
  | some d => d
  | none => SSV.record []

/-- Python `set.add` on a set of strings, modelled as a duplicate-free
list in insertion order. -/
def setAdd (s : List String) (x : String) : List String :=
  if x ∈ s then s else s ++ [x]

/-- Adding one rule of the `sharedRules.rule` list to the registry:
`if "name" in rule: shared_rules.add(rule["name"])`; adding an
unhashable value raises. -/
def add_rule_name (acc : List String) (rule : SSV) : Except String (List String) :=
  if pyContains rule "name" then
    ebind (pyIndex rule "name") fun v =>
    match v with
    | SSV.scalar s => Except.ok (setAdd acc s)
    | _ => Except.error "TypeError"
  else Except.ok acc

/-- The body of the `try` block of `load_shared_rules` (lines 42-53):
collects rule names from `game_system_data["sharedRules"]["rule"]`. -/
def collect_shared_rules (game_system_data : SSV) : Except String (List String) :=
  if pyContains game_system_data "sharedRules" then
    ebind (pyIndex game_system_data "sharedRules") fun shared_rules =>
    if pyContains shared_rules "rule" then
      ebind (pyIndex shared_rules "rule") fun rules =>
      match rules with
      | SSV.list rs => efoldl add_rule_name [] rs
      | r => add_rule_name [] r
    else Except.ok []
  else Except.ok []

/-- `load_shared_rules`: loads the companion document (failures inside
`load_json_file` are swallowed there and yield `{}`), collects rule
names, and installs the fallback list only when the collection itself
raises. -/
def load_shared_rules (fileContent : Option SSV) : List String :=
  match collect_shared_rules (load_json_file fileContent) with
  | Except.ok rules => rules
  | Except.error _ => default_shared_rules

/-! ## extract_abilities (transform_battlescribe.py 99-216) -/

/-- One modifier of an infoLink (lines 143-145): appends
`modifier.get("value", "")` to the rule name when
`modifier.get("type") == "append" and modifier.get("field") == "name"`;
Python `+=` raises unless both sides are strings. -/
def apply_modifier (rn : SSV) (m : SSV) : Except String SSV :=
  ebind (pyGetOpt m "type") fun t =>
  match t with
  | some (SSV.scalar ts) =>
      if ts = "append" then
        ebind (pyGetOpt m "field") fun f =>
        match f with
        | some (SSV.scalar fs) =>
            if fs = "name" then
              ebind (pyGet m "value" (SSV.scalar "")) fun v =>
              match rn, v with
              | SSV.scalar a, SSV.scalar b => Except.ok (SSV.scalar (a ++ b))
              | _, _ => Except.error "TypeError"
            else Except.ok rn
        | _ => Except.ok rn
      else Except.ok rn
  | _ => Except.ok rn

/-- Lines 133-145: the base rule name of an infoLink and its
modifier-synthesized final form. -/
def rule_name_of_info_link (il : SSV) : Except String SSV :=
  ebind (pyGet il "name" (SSV.scalar "")) fun rn0 =>
  if pyContains il "modifiers" then
    ebind (pyIndex il "modifiers") fun modifiers =>
    match find_key modifiers "modifier" with
    | none => Except.ok rn0
    | some mk =>
        ebind (pyIndex modifiers mk) fun mv =>
        efoldl apply_modifier rn0 (asPyList mv)
  else Except.ok rn0

/-- Lines 147-157: registry classification of an infoLink rule name
(`rule_name in self.shared_rules` raises on an unhashable value). -/
def classify_rule (reg : List String) (st : AbilitySet) (rn : SSV) : Except String AbilitySet :=
  match rn with
  | SSV.scalar s =>
      if s ∈ reg then Except.ok { st with core := st.core ++ [s] }
      else Except.ok { st with other := st.other ++
        [{ name := s, description := SSV.scalar "", showAbility := true, showDescription := false }] }
  | _ => Except.error "TypeError"

/-- One infoLink (lines 132-157). -/
def process_info_link (reg : List String) (st : AbilitySet) (il : SSV) : Except String AbilitySet :=
  ebind (rule_name_of_info_link il) (classify_rule reg st)

/-- One characteristic of an ability profile (lines 185-188 / 201-203):
produces the `(profile name, description)` pair when the characteristic
is named `Description`. -/
def ability_char (profile c : SSV) : Except String (Option (SSV × SSV)) :=
  ebind (pyGetOpt c "name") fun n =>
  match n with
  | some (SSV.scalar s) =>
      if s = "Description" then
        ebind (pyGet profile "name" (SSV.scalar "")) fun an =>
        ebind (pyGet c "_text" (SSV.scalar "")) fun ad =>
        Except.ok (some (an, ad))
      else Except.ok none
  | _ => Except.ok none

/-- Lines 190-199 / 205-214: registry classification of a local ability
profile. -/
def classify_ability (reg : List String) (st : AbilitySet) :
    Option (SSV × SSV) → Except String AbilitySet
  | none => Except.ok st
  | some (an, ad) =>
      match an with
      | SSV.scalar s =>
          if s ∈ reg then Except.ok { st with core := st.core ++ [s] }
          else Except.ok { st with other := st.other ++
            [{ name := s, description := ad, showAbility := true, showDescription := true }] }
      | _ => Except.error "TypeError"

/-- One characteristic inside the ability-profile loop. -/
def process_ability_char (reg : List String) (profile : SSV) (st : AbilitySet) (c : SSV) :
    Except String AbilitySet :=
  ebind (ability_char profile c) (classify_ability reg st)

/-- One profile of the abilities section (lines 171-214): only profiles
with the abilities `typeId` contribute. -/
def process_ability_profile (reg : List String) (st : AbilitySet) (profile : SSV) :
    Except String AbilitySet :=
  ebind (pyGetOpt profile "typeId") fun tid =>
  match tid with
  | some (SSV.scalar s) =>
      if s = "9cc3-6d83-4dd3-9b64" then
        match find_key profile "characteristics" with
        | none => Except.ok st
        | some ck =>
            ebind (pyIndex profile ck) fun characteristics =>
            match find_key characteristics "characteristic" with
            | none => Except.ok st
            | some chk =>
                ebind (pyIndex characteristics chk) fun ch =>
                match ch with
                | SSV.list cs => efoldl (process_ability_char reg profile) st cs
                | c => process_ability_char reg profile st c
      else Except.ok st
  | _ => Except.ok st

/-- Lines 123-157: the infoLinks section of `extract_abilities`. -/
def process_info_links_section (reg : List String) (st : AbilitySet) (entry : SSV) :
    Except String AbilitySet :=
  match find_key entry "infoLinks" with
  | none => Except.ok st
  | some k =>
      ebind (pyIndex entry k) fun info_links =>
      match find_key info_links "infoLink" with
      | none => Except.ok st
      | some k2 =>
          ebind (pyIndex info_links k2) fun v =>
          efoldl (process_info_link reg) st (asPyList v)

/-- Lines 159-214: the profiles section of `extract_abilities`. -/
def process_profiles_section (reg : List String) (st : AbilitySet) (entry : SSV) :
    Except String AbilitySet :=
  match find_key entry "profiles" with
  | none => Except.ok st
  | some pk =>
      ebind (pyIndex entry pk) fun profiles =>
      match find_key profiles "profile" with
      | none => Except.ok st
      | some prk =>
          ebind (pyIndex profiles prk) fun pv =>
          efoldl (process_ability_profile reg) st (asPyList pv)

/-- `extract_abilities` (lines 99-216): starts from the constant
ability block, then processes infoLinks and ability profiles. -/
def extract_abilities (reg : List String) (selection_entry : SSV) : Except String AbilitySet :=
  ebind (process_info_links_section reg initAbilities selection_entry) fun st =>
  process_profiles_section reg st selection_entry

/-! ## extract_stats (transform_battlescribe.py 218-285) -/

/-- One stat characteristic (lines 255-280): the `elif` chain mapping
characteristic names M/T/SV/W/LD/OC to row fields. -/
def stat_char (st : StatRow) (c : SSV) : Except String StatRow :=
  ebind (pyGetOpt c "name") fun n =>
  match n with
  | some (SSV.scalar s) =>
      if s = "M" then
        ebind (pyGet c "_text" (SSV.scalar "")) fun v => Except.ok { st with m := some v }
      else if s = "T" then
        ebind (pyGet c "_text" (SSV.scalar "")) fun v => Except.ok { st with t := some v }
      else if s = "SV" then
        ebind (pyGet c "_text" (SSV.scalar "")) fun v => Except.ok { st with sv := some v }
      else if s = "W" then
        ebind (pyGet c "_text" (SSV.scalar "")) fun v => Except.ok { st with w := some v }
      else if s = "LD" then
        ebind (pyGet c "_text" (SSV.scalar "")) fun v => Except.ok { st with ld := some v }
      else if s = "OC" then
        ebind (pyGet c "_text" (SSV.scalar "")) fun v => Except.ok { st with oc := some v }
      else Except.ok st
  | _ => Except.ok st

/-- One profile of `extract_stats` (lines 234-283): a unit-typed profile
yields a row unless its resolved name is falsy. -/
def build_stat (profile : SSV) : Except String (Option StatRow) :=
  ebind (pyGetOpt profile "typeId") fun tid =>
  match tid with
  | some (SSV.scalar s) =>
      if s = "c547-1836-d8a-ff4f" then
        ebind (pyGet profile "name" (SSV.scalar "")) fun nm =>
        let st0 : StatRow := { active := true, name := nm, showName := false, showDamagedMarker := false }
        ebind (match find_key profile "characteristics" with
          | none => Except.ok st0
          | some ck =>
              ebind (pyIndex profile ck) fun characteristics =>
              match find_key characteristics "characteristic" with
              | none => Except.ok st0
              | some chk =>
                  ebind (pyIndex characteristics chk) fun ch =>
                  match ch with
                  | SSV.list cs => efoldl stat_char st0 cs
                  | c => stat_char st0 c) fun st =>
        Except.ok (if pyTruthy st.name then some st else none)
      else Except.ok none
  | _ => Except.ok none

/-- `extract_stats` (lines 218-285). -/
def extract_stats (selection_entry : SSV) : Except String (List StatRow) :=
  match find_key selection_entry "profiles" with
  | none => Except.ok []
  | some pk =>
      ebind (pyIndex selection_entry pk) fun profiles =>
      match find_key profiles "profile" with
      | none => Except.ok []
      | some prk =>
          ebind (pyIndex profiles prk) fun pv =>
          efoldl (fun acc profile =>
            ebind (build_stat profile) fun r =>
            Except.ok (match r with
              | some st => acc ++ [st]
              | none => acc)) [] (asPyList pv)

/-! ## extract_weapons (transform_battlescribe.py 287-387) -/

/-- One weapon characteristic (lines 348-381): the `elif` chain for
Range/A/BS/S/AP/D/Keywords; the keyword text is comma-split and each
part stripped, raising unless it is a (truthy) string. -/
def weapon_char (wp : WeaponProfile) (c : SSV) : Except String WeaponProfile :=
  ebind (pyGetOpt c "name") fun n =>
  match n with
  | some (SSV.scalar s) =>
      if s = "Range" then
        ebind (pyGet c "_text" (SSV.scalar "")) fun v => Except.ok { wp with range := some v }
      else if s = "A" then
        ebind (pyGet c "_text" (SSV.scalar "")) fun v => Except.ok { wp with attacks := some v }
      else if s = "BS" then
        ebind (pyGet c "_text" (SSV.scalar "")) fun v => Except.ok { wp with skill := some v }
      else if s = "S" then
        ebind (pyGet c "_text" (SSV.scalar "")) fun v => Except.ok { wp with strength := some v }
      else if s = "AP" then
        ebind (pyGet c "_text" (SSV.scalar "")) fun v => Except.ok { wp with ap := some v }
      else if s = "D" then
        ebind (pyGet c "_text" (SSV.scalar "")) fun v => Except.ok { wp with damage := some v }
      else if s = "Keywords" then
        ebind (pyGet c "_text" (SSV.scalar "")) fun kt =>
        if pyTruthy kt then
          match kt with
          | SSV.scalar ks =>
              Except.ok { wp with keywords := some ((pySplitComma ks).map pyStrip) }
          | _ => Except.error "AttributeError"
        else Except.ok wp
      else Except.ok wp
  | _ => Except.ok wp

/-- The typeId discrimination of lines 320-322. -/
def weapon_type_matches (weapon_type : String) (tid : Option SSV) : Bool :=
  match tid with
  | some (SSV.scalar s) =>
      (weapon_type == "ranged" && s == "f77d-b953-8fa4-b762") ||
      (weapon_type == "melee" && s == "8a40-4aaa-c780-9046")
  | _ => false

/-- One profile of `extract_weapons` (lines 319-383): a matching profile
resolves its weapon name (the dict key, so it must be hashable) and
fills its characteristic fields. -/
def build_weapon_profile (weapon_type : String) (profile : SSV) :
    Except String (Option (String × WeaponProfile)) :=
  ebind (pyGetOpt profile "typeId") fun tid =>
  if weapon_type_matches weapon_type tid then
    ebind (pyGet profile "name" (SSV.scalar "")) fun nv =>
    match nv with
    | SSV.scalar wname =>
        let wp0 : WeaponProfile := { active := true, name := wname }
        ebind (match find_key profile "characteristics" with
          | none => Except.ok wp0
          | some ck =>
              ebind (pyIndex profile ck) fun characteristics =>
              match find_key characteristics "characteristic" with
              | none => Except.ok wp0
              | some chk =>
                  ebind (pyIndex characteristics chk) fun ch =>
                  match ch with
                  | SSV.list cs => efoldl weapon_char wp0 cs
                  | c => weapon_char wp0 c) fun wp =>
        Except.ok (some (wname, wp))
    | _ => Except.error "TypeError"
  else Except.ok none

/-- Lines 325-329 and 383: ensure the group exists (insertion order
preserved), then append the profile to it. -/
def dict_add_profile (groups : List (String × WeaponGroup)) (wname : String)
    (wp : WeaponProfile) : List (String × WeaponGroup) :=
  let g1 := match lookupA groups wname with
    | some _ => groups
    | none => groups ++ [(wname, { active := true, profiles := [] })]
  updateA g1 wname (fun g => { g with profiles := g.profiles ++ [wp] })

/-- One profile step of the weapon-grouping loop. -/
def process_weapon_profile (weapon_type : String) (groups : List (String × WeaponGroup))
    (profile : SSV) : Except String (List (String × WeaponGroup)) :=
  ebind (build_weapon_profile weapon_type profile) fun r =>
  Except.ok (match r with
    | none => groups
    | some (n, wp) => dict_add_profile groups n wp)

/-- One nested selectionEntry (lines 306-383). -/
def process_weapon_entry (weapon_type : String) (groups : List (String × WeaponGroup))
    (entry : SSV) : Except String (List (String × WeaponGroup)) :=
  match find_key entry "profiles" with
  | none => Except.ok groups
  | some pk =>
      ebind (pyIndex entry pk) fun profiles =>
      match find_key profiles "profile" with
      | none => Except.ok groups
      | some prk =>
          ebind (pyIndex profiles prk) fun pv =>
          efoldl (process_weapon_profile weapon_type) groups (asPyList pv)

/-- `extract_weapons` (lines 287-387): walks the nested selection
entries, groups matching profiles by weapon name, and returns
`list(weapon_groups.values())`. -/
def extract_weapons (selection_entry : SSV) (weapon_type : String) :
    Except String (List WeaponGroup) :=
  match find_key selection_entry "selectionEntries" with
  | none => Except.ok []
  | some sk =>
      ebind (pyIndex selection_entry sk) fun selection_entries =>
      match find_key selection_entries "selectionEntry" with
      | none => Except.ok []
      | some sek =>
          ebind (pyIndex selection_entries sek) fun ev =>
          ebind (efoldl (process_weapon_entry weapon_type) [] (asPyList ev)) fun groups =>
          Except.ok (groups.map Prod.snd)

/-! ## extract_keywords and extract_points (transform_battlescribe.py 389-438) -/

/-- One categoryLink (lines 405-410): appends `link["name"]` when
present. -/
def keyword_of_link (acc : List SSV) (link : SSV) : Except String (List SSV) :=
  if pyContains link "name" then
    ebind (pyIndex link "name") fun v => Except.ok (acc ++ [v])
  else Except.ok acc

/-- `extract_keywords` (lines 389-412). -/
def extract_keywords (selection_entry : SSV) : Except String (List SSV) :=
  match find_key selection_entry "categoryLinks" with
  | none => Except.ok []
  | some ck =>
      ebind (pyIndex selection_entry ck) fun category_links =>
      match find_key category_links "categoryLink" with
      | none => Except.ok []
      | some clk =>
          ebind (pyIndex category_links clk) fun links =>
          match links with
          | SSV.list ls => efoldl keyword_of_link [] ls
          | l => keyword_of_link [] l

/-- One cost (lines 430-436): a cost named `pts` yields one row with
fixed name `model`, model count `1` and the cost value. -/
def point_of_cost (acc : List PointRow) (cost : SSV) : Except String (List PointRow) :=
  ebind (pyGetOpt cost "name") fun n =>
  match n with
  | some (SSV.scalar s) =>
      if s = "pts" then
        ebind (pyGet cost "value" (SSV.scalar "0")) fun v =>
        Except.ok (acc ++ [{ name := "model", model := "1", cost := v }])
      else Except.ok acc
  | _ => Except.ok acc

/-- `extract_points` (lines 414-438). -/
def extract_points (selection_entry : SSV) : Except String (List PointRow) :=
  match find_key selection_entry "costs" with
  | none => Except.ok []
  | some ck =>
      ebind (pyIndex selection_entry ck) fun costs =>
      match find_key costs "cost" with
      | none => Except.ok []
      | some cok =>
          ebind (pyIndex costs cok) fun cv =>
          efoldl point_of_cost [] (asPyList cv)

/-! ## extract_datasheet and extract_enhancements (439-504) -/

mutual

/-- Python `repr` as used by `str` on parsed values: dicts and lists
render recursively, strings in single quotes (escaping of special
characters is out of scope; the pipeline only renders plain names). -/
def pyRepr : SSV → String
  | SSV.scalar s => "\x27" ++ s ++ "\x27"
  | SSV.record fs => "\x7b" ++ String.intercalate ", " (pyReprFields fs) ++ "\x7d"
  | SSV.list xs => "[" ++ String.intercalate ", " (pyReprElems xs) ++ "]"
termination_by structural v => v

def pyReprFields : List (String × SSV) → List String
  | [] => []
  | (k, v) :: fs => ("\x27" ++ k ++ "\x27: " ++ pyRepr v) :: pyReprFields fs
termination_by structural fs => fs

def pyReprElems : List SSV → List String
  | [] => []
  | v :: vs => pyRepr v :: pyReprElems vs
termination_by structural vs => vs

end

/-- Python `str` conversion inside the composition f-string: a string
renders as itself, anything else via `repr`. -/
def pyStr : SSV → String
  | SSV.scalar s => s
  | v => pyRepr v

/-- The datasheet dict built by `extract_datasheet` (lines 445-464).
`uuid.uuid4()` is modelled as the explicit `fresh_id` argument. -/
structure Datasheet where
  id : String
  name : SSV
  cardType : String
  factions : List String
  faction_id : String
  source : String
  abilities : AbilitySet
  stats : List StatRow
  rangedWeapons : List WeaponGroup
  meleeWeapons : List WeaponGroup
  keywords : List SSV
  points : List PointRow
  composition : List String
  fluff : String
  leader : String
  loadout : String
  transport : String
  wargear : List String

/-- `extract_datasheet` (lines 440-466): returns `None` unless the
entry's `type` is the string `"model"`, else assembles the datasheet
from the sub-extractors. -/
def extract_datasheet (reg : List String) (fresh_id : String) (selection_entry : SSV) :
    Except String (Option Datasheet) :=
  ebind (pyGetOpt selection_entry "type") fun tv =>
  match tv with
  | some (SSV.scalar ts) =>
      if ts = "model" then
        ebind (pyGet selection_entry "name" (SSV.scalar "")) fun nm =>
        ebind (extract_abilities reg selection_entry) fun ab =>
        ebind (extract_stats selection_entry) fun sts =>
        ebind (extract_weapons selection_entry "ranged") fun rw =>
        ebind (extract_weapons selection_entry "melee") fun mw =>
        ebind (extract_keywords selection_entry) fun kw =>
        ebind (extract_points selection_entry) fun pts =>
        ebind (pyGet selection_entry "name" (SSV.scalar "")) fun nm2 =>
        Except.ok (some
          { id := fresh_id
            name := nm
            cardType := "DataCard"
            factions := ["Dark Angels"]
            faction_id := "CHDA"
            source := "40k-10e"
            abilities := ab
            stats := sts
            rangedWeapons := rw
            meleeWeapons := mw
            keywords := kw
            points := pts
            composition := ["1 " ++ pyStr nm2]
            fluff := ""
            leader := ""
            loadout := ""
            transport := ""
            wargear := [] })
      else Except.ok none
  | _ => Except.ok none

/-- The enhancement dict built by `extract_enhancements` (473-484). -/
structure Enhancement where
  name : SSV
  id : String
  cost : String
  keywords : List String
  excludes : List String
  description : SSV
  faction_id : String
  source : String
  cardType : String
  detachment : String

/-- One Description characteristic of an enhancement profile
(lines 496-502). -/
def enh_char (e : Enhancement) (c : SSV) : Except String Enhancement :=
  ebind (pyGetOpt c "name") fun n =>
  match n with
  | some (SSV.scalar s) =>
      if s = "Description" then
        ebind (pyGet c "_text" (SSV.scalar "")) fun d =>
        Except.ok { e with description := d }
      else Except.ok e
  | _ => Except.ok e

/-- One profile of the enhancement description scan (lines 492-502). -/
def enh_profile (e : Enhancement) (profile : SSV) : Except String Enhancement :=
  ebind (pyGetOpt profile "typeId") fun tid =>
  match tid with
  | some (SSV.scalar s) =>
      if s = "9cc3-6d83-4dd3-9b64" then
        if pyContains profile "characteristics" then
          ebind (pyIndex profile "characteristics") fun characteristics =>
          if pyContains characteristics "characteristic" then
            ebind (pyIndex characteristics "characteristic") fun ch =>
            match ch with
            | SSV.list cs => efoldl enh_char e cs
            | c => enh_char e c
          else Except.ok e
        else Except.ok e
      else Except.ok e
  | _ => Except.ok e

/-- `extract_enhancements` (lines 468-504): returns `None` unless the
entry's `type` is the string `"upgrade"`, else builds the enhancement
and scans ability profiles for a description. -/
def extract_enhancements (fresh_id : String) (selection_entry : SSV) :
    Except String (Option Enhancement) :=
  ebind (pyGetOpt selection_entry "type") fun tv =>
  match tv with
  | some (SSV.scalar ts) =>
      if ts = "upgrade" then
        ebind (pyGet selection_entry "name" (SSV.scalar "")) fun nm =>
        let base : Enhancement :=
          { name := nm, id := fresh_id, cost := "0", keywords := ["Dark Angels"],
            excludes := [], description := SSV.scalar "", faction_id := "CHDA",
            source := "40k-10e", cardType := "enhancement",
            detachment := "Wrath of the Rock" }
        if pyContains selection_entry "profiles" then
          ebind (pyIndex selection_entry "profiles") fun profiles =>
          match profiles with
          | SSV.record _ =>
              if pyContains profiles "profile" then
                ebind (pyIndex profiles "profile") fun pv =>
                ebind (efoldl enh_profile base (asPyList pv)) fun e =>
                Except.ok (some e)
              else Except.ok (some base)
          | _ => Except.ok (some base)
        else Except.ok (some base)
      else Except.ok none
  | _ => Except.ok none

/-! ## Normalizer lemmas: field characterization of `parse_xml_to_dict` -/

/-- Whether a value is a Python list. -/
def SSV.isList : SSV → Bool
  | SSV.list _ => true
  | _ => false

/-- Field access on a record; anything else has no fields. -/
def getField (v : SSV) (key : String) : Option SSV :=
  match v with
  | SSV.record fs => lookupA fs key
  | _ => none

/-- The record built for an element before the text-handling step:
attributes first, then the merged children. -/
def nodeFields (attrib : List (String × String)) (children : List XmlElement) :
    List (String × SSV) :=
  addChildren (attrib.map (fun p => (p.1, SSV.scalar p.2))) (childPairs children)

/-- What one merge step stores under a key, given what was there. -/
def pyAddVal : Option SSV → SSV → SSV
  | none, v => v
  | some (SSV.list xs), v => SSV.list (xs ++ [v])
  | some w, v => SSV.list [w, v]

/-- Iterated `pyAddVal` over the values arriving at one key. -/
def combineVals : Option SSV → List SSV → Option SSV
  | o, [] => o
  | o, v :: vs => combineVals (some (pyAddVal o v)) vs

/-- The values that the child loop sends to a given key, in order. -/
def childVals (key : String) (children : List XmlElement) : List SSV :=
  (children.filter (fun c => clean_tag_name c.tag == key)).map parse_xml_to_dict

/-- What the merge loop leaves under a key receiving these values (all
non-lists): nothing, the bare value, or the list of all of them. -/
def coalesced : List SSV → Option SSV
  | [] => none
  | [v] => some v
  | v :: w :: r => some (SSV.list (v :: w :: r))

/-! ## Inversion lemmas for the exception monad -/

/-! ## The core/other partition invariant of extract_abilities -/

/-- Everything `extract_abilities` ever changes about the ability block
is an append to `core` (registry members only) or to `other`
(non-members only); all other fields keep their initial constants. -/
def AbInv (reg : List String) (a : AbilitySet) : Prop :=
  (∀ n ∈ a.core, n ∈ reg) ∧ (∀ o ∈ a.other, o.name ∉ reg) ∧
  a.faction = ["Oath of Moment"] ∧ a.special = [] ∧ a.wargear = [] ∧
  a.primarch = [] ∧
  a.damaged = { description := "", range := "", showDamagedAbility := false,
                showDescription := true } ∧
  a.invul = { info := "", showAtTop := true, showInfo := false,
              showInvulnerableSave := true, value := "5+" }

/-- The entry of the C4 witness: one infoLink named `Leader` plus one
local ability profile named `Stubborn`. -/
def c4_entry : SSV :=
  SSV.record
    [("infoLinks", SSV.record [("infoLink", SSV.record [("name", SSV.scalar "Leader")])]),
     ("profiles", SSV.record [("profile", SSV.record
        [("typeId", SSV.scalar "9cc3-6d83-4dd3-9b64"),
         ("name", SSV.scalar "Stubborn"),
         ("characteristics", SSV.record [("characteristic", SSV.list
            [SSV.record [("name", SSV.scalar "Description"),
                         ("_text", SSV.scalar "holds the line")]])])])])]

/-- The ability block the C4/C10 witness entry produces. -/
def c4_abilities : AbilitySet :=
  { initAbilities with
    core := ["Leader"],
    other := [{ name := "Stubborn", description := SSV.scalar "holds the line",
                showAbility := true, showDescription := true }] }

/-! ## Claim C3: modifier-synthesized rule names -/

/-- A normalized `modifier` node with scalar `type`, `field` and `value`
attributes. -/
def mk_modifier (m : String × String × String) : SSV :=
  SSV.record [("type", SSV.scalar m.1), ("field", SSV.scalar m.2.1),
              ("value", SSV.scalar m.2.2)]

/-- The suffix the modifier loop appends: the concatenation, in order,
of the values of exactly the modifiers with `type="append"` and
`field="name"`. -/
def appended_values : List (String × String × String) → String
  | [] => ""
  | m :: ms => (if m.1 = "append" ∧ m.2.1 = "name" then m.2.2 else "") ++ appended_values ms

/-- An infoLink node carrying a base name and an ordered modifier
list. -/
def c3_info_link (base : String) (ms : List (String × String × String)) : SSV :=
  SSV.record
    [("name", SSV.scalar base),
     ("modifiers", SSV.record [("modifier", SSV.list (ms.map mk_modifier))])]

/-- A selection entry whose only content is that infoLink. -/
def c3_entry (base : String) (ms : List (String × String × String)) : SSV :=
  SSV.record [("infoLinks", SSV.record [("infoLink", c3_info_link base ms)])]

/-! ## Claim C5: type-tag discrimination -/

/-! ## Claim C8: point-cost extraction -/

/-- The scenario entry of claim C8. -/
def c8_entry : SSV :=
  SSV.record
    [("type", SSV.scalar "model"), ("name", SSV.scalar "Intercessor Squad"),
     ("costs", SSV.record [("cost", SSV.record
        [("name", SSV.scalar "pts"), ("value", SSV.scalar "100")])])]

/-- The datasheet the C8 scenario produces (for a given fresh id). -/
def c8_datasheet (fid : String) : Datasheet :=
  { id := fid, name := SSV.scalar "Intercessor Squad", cardType := "DataCard",
    factions := ["Dark Angels"], faction_id := "CHDA", source := "40k-10e",
    abilities := initAbilities, stats := [], rangedWeapons := [], meleeWeapons := [],
    keywords := [],
    points := [{ name := "model", model := "1", cost := SSV.scalar "100" }],
    composition := ["1 Intercessor Squad"], fluff := "", leader := "", loadout := "",
    transport := "", wargear := [] }

/-! ## Claim C9: missing optional fields are non-fatal -/

/-- A unit profile whose name resolves to the empty default: its row is
discarded. -/
def c9_unnamed_entry : SSV :=
  SSV.record [("profiles", SSV.record [("profile", SSV.record
    [("typeId", SSV.scalar "c547-1836-d8a-ff4f")])])]

/-- A unit profile with a name but no characteristics section: a row is
kept with every characteristic field absent. -/
def c9_bare_entry : SSV :=
  SSV.record [("profiles", SSV.record [("profile", SSV.record
    [("typeId", SSV.scalar "c547-1836-d8a-ff4f"),
     ("name", SSV.scalar "Tactical")])])]

/-! ## Claim C6: weapon grouping by resolved name -/

/-- The invariant of the `weapon_groups` dict: unique weapon-name keys,
each group nonempty, and every profile filed under its own resolved
name. -/
def GroupInv (groups : List (String × WeaponGroup)) : Prop :=
  (groups.map Prod.fst).Nodup ∧
  ∀ p ∈ groups, p.2.profiles ≠ [] ∧ ∀ q ∈ p.2.profiles, q.name = p.1

/-- One nested sub-selection entry for the C6 scenario: a single ranged
profile named `n` with one `Range` characteristic `r`. -/
def c6_sub (n r : String) : SSV :=
  SSV.record [("profiles", SSV.record [("profile", SSV.record
    [("typeId", SSV.scalar "f77d-b953-8fa4-b762"),
     ("name", SSV.scalar n),
     ("characteristics", SSV.record [("characteristic", SSV.record
        [("name", SSV.scalar "Range"), ("_text", SSV.scalar r)])])])])]

/-- A selection entry with two nested sub-entries carrying same-named
ranged profiles. -/
def c6_entry (n r1 r2 : String) : SSV :=
  SSV.record [("selectionEntries", SSV.record
    [("selectionEntry", SSV.list [c6_sub n r1, c6_sub n r2])])]

/-! ## Production-list characterization of extract_abilities -/

/-- The `core` bucket induced by a run's productions: one entry per
produced name that is in the registry, in production order. -/
def core_of (reg : List String) : List (String × SSV × Bool) → List String
  | [] => []
  | p :: ps => (if p.1 ∈ reg then [p.1] else []) ++ core_of reg ps

/-- The `other` bucket induced by a run's productions: one full record
per produced name outside the registry, in production order. -/
def other_of (reg : List String) : List (String × SSV × Bool) → List OtherAbility
  | [] => []
  | p :: ps =>
      (if p.1 ∈ reg then [] else
        [{ name := p.1, description := p.2.1, showAbility := true,
           showDescription := p.2.2 }]) ++ other_of reg ps

/-- A run state reachable from the initial block: its two buckets are
the two projections of one ordered production list. -/
def AbRun (reg : List String) (st : AbilitySet) : Prop :=
  ∃ prods : List (String × SSV × Bool),
    st.core = core_of reg prods ∧ st.other = other_of reg prods

theorem parse_elem_def (tag : String) (attrib : List (String × String))
    (children : List XmlElement) (text : String) :
    parse_xml_to_dict (XmlElement.elem tag attrib children text) =
      if pyStrip text = "" then SSV.record (nodeFields attrib children)
      else match nodeFields attrib children with
           | [] => SSV.scalar (pyStrip text)
           | f :: fs => SSV.record (setA (f :: fs) "_text" (SSV.scalar (pyStrip text))) := by
  rw [parse_xml_to_dict]
  rfl

theorem parse_not_list (e : XmlElement) : (parse_xml_to_dict e).isList = false := by
  obtain ⟨tag, attrib, children, text⟩ := e
  rw [parse_elem_def]
  split
  · rfl
  · split <;> rfl

theorem lookupA_append {α : Type} (fs gs : List (String × α)) (key : String) :
    lookupA (fs ++ gs) key =
      match lookupA fs key with
      | some v => some v
      | none => lookupA gs key := by
  induction fs with
  | nil => simp [lookupA]
  | cons p fs ih =>
      obtain ⟨k, v⟩ := p
      by_cases h : k = key <;> simp [lookupA, h, ih]

theorem lookupA_setA_self {α : Type} (fs : List (String × α)) (k : String) (v : α) :
    lookupA (setA fs k v) k = some v := by
  induction fs with
  | nil => simp [setA, lookupA]
  | cons p fs ih =>
      obtain ⟨k1, w⟩ := p
      by_cases h : k1 = k <;> simp [setA, lookupA, h, ih]

theorem lookupA_setA_ne {α : Type} (fs : List (String × α)) (k key : String) (v : α)
    (h : key ≠ k) : lookupA (setA fs k v) key = lookupA fs key := by
  induction fs with
  | nil => simp [setA, lookupA, Ne.symm h]
  | cons p fs ih =>
      obtain ⟨k1, w⟩ := p
      by_cases h1 : k1 = k
      · subst h1
        simp [setA, lookupA, Ne.symm h]
      · by_cases h2 : k1 = key <;> simp [setA, lookupA, h1, h2, ih, h]

theorem lookupA_addChild_self (fs : List (String × SSV)) (k : String) (v : SSV) :
    lookupA (addChild fs k v) k = some (pyAddVal (lookupA fs k) v) := by
  unfold addChild
  cases h : lookupA fs k with
  | none =>
      rw [lookupA_append, h]
      simp [pyAddVal, lookupA]
  | some w =>
      cases w <;> simp [pyAddVal, lookupA_setA_self]

theorem lookupA_addChild_ne (fs : List (String × SSV)) (k key : String) (v : SSV)
    (h : key ≠ k) : lookupA (addChild fs k v) key = lookupA fs key := by
  unfold addChild
  cases hl : lookupA fs k with
  | none =>
      rw [lookupA_append]
      cases h2 : lookupA fs key <;> simp [lookupA, Ne.symm h, h2]
  | some w =>
      cases w <;> simp [lookupA_setA_ne _ _ _ _ h]

theorem lookupA_addChildren (ps : List (String × SSV)) (fs : List (String × SSV))
    (key : String) :
    lookupA (addChildren fs ps) key =
      combineVals (lookupA fs key) ((ps.filter (fun p => p.1 == key)).map Prod.snd) := by
  induction ps generalizing fs with
  | nil => simp [addChildren, combineVals]
  | cons p ps ih =>
      obtain ⟨k, v⟩ := p
      by_cases h : k = key
      · subst h
        simp only [addChildren, ih, List.filter_cons]
        simp [combineVals, lookupA_addChild_self]
      · simp only [addChildren, ih, List.filter_cons]
        simp [h, lookupA_addChild_ne _ _ _ _ (Ne.symm h)]

theorem combineVals_some_list (vs : List SSV) (acc : List SSV) :
    combineVals (some (SSV.list acc)) vs = some (SSV.list (acc ++ vs)) := by
  induction vs generalizing acc with
  | nil => simp [combineVals]
  | cons v vs ih => simp [combineVals, pyAddVal, ih]

theorem combineVals_none (vs : List SSV) (hnl : ∀ v ∈ vs, v.isList = false) :
    combineVals none vs = coalesced vs := by
  match vs with
  | [] => rfl
  | [v] => simp [combineVals, pyAddVal, coalesced]
  | v :: w :: r =>
      have hv : v.isList = false := hnl v (by simp)
      simp only [combineVals, pyAddVal, coalesced]
      cases v with
      | scalar s => simp [pyAddVal, combineVals_some_list]
      | record fs => simp [pyAddVal, combineVals_some_list]
      | list xs => simp [SSV.isList] at hv

theorem childPairs_eq (cs : List XmlElement) :
    childPairs cs = cs.map (fun c => (clean_tag_name c.tag, parse_xml_to_dict c)) := by
  induction cs with
  | nil => rfl
  | cons c cs ih => simp [childPairs, ih]

theorem childVals_filter_map (key : String) (cs : List XmlElement) :
    ((childPairs cs).filter (fun p => p.1 == key)).map Prod.snd =
      childVals key cs := by
  unfold childVals
  induction cs with
  | nil => rfl
  | cons c cs ih =>
      by_cases h : clean_tag_name c.tag = key <;>
        simp [childPairs, List.filter_cons, h, ih]

/-- The central field characterization: under a key that is neither an
attribute name nor `_text`, the field of the normalized node is exactly
the combine of the values of the same-tag children. -/
theorem getField_parse (tag : String) (attrib : List (String × String))
    (children : List XmlElement) (text : String) (key : String)
    (hattr : key ∉ attrib.map Prod.fst) (htext : key ≠ "_text") :
    getField (parse_xml_to_dict (XmlElement.elem tag attrib children text)) key =
      combineVals none (childVals key children) := by
  have hbase : lookupA (attrib.map (fun p => (p.1, SSV.scalar p.2))) key = none := by
    induction attrib with
    | nil => rfl
    | cons p ps ih =>
        simp only [List.map_cons, List.mem_cons, not_or] at hattr
        simp only [List.map_cons, lookupA]
        rw [if_neg (fun hh => hattr.1 hh.symm)]
        exact ih hattr.2
  have hfields : lookupA (nodeFields attrib children) key =
      combineVals none (childVals key children) := by
    rw [nodeFields, lookupA_addChildren, hbase, childVals_filter_map]
  rw [parse_elem_def]
  by_cases ht : pyStrip text = ""
  · rw [if_pos ht]
    exact hfields
  · rw [if_neg ht]
    cases heq : nodeFields attrib children with
    | nil =>
        rw [heq] at hfields
        simp only [lookupA] at hfields
        simp [getField, ← hfields]
    | cons f fs =>
        rw [heq] at hfields
        simp only [getField]
        rw [lookupA_setA_ne _ _ _ _ htext]
        exact hfields

/-- Claim C2, as stated, is false: in `parse_xml_to_dict` attributes and
children share one namespace, so an attribute named like a child's tag
coalesces with it.  Here the parent has attribute `a="x"` and exactly
ONE child tagged `a`, yet field `a` holds a list (of length 2), refuting
both directions of the claimed "list of length N iff N sibling children
share the tag; N = 1 always yields a bare value". -/
theorem C2_attribute_collision_counterexample :
    (([XmlElement.elem "a" [] [] ""] : List XmlElement).filter
        (fun c => clean_tag_name c.tag == "a")).length = 1 ∧
    getField (parse_xml_to_dict (XmlElement.elem "root" [("a", "x")]
        [XmlElement.elem "a" [] [] ""] "")) "a" =
      some (SSV.list [SSV.scalar "x", SSV.record []]) :=
  ⟨rfl, rfl⟩

/-- Claim C2 (amended): provided the inspected key collides with no
attribute name of the node and is not `_text`, a field of the
normalized record holds an ordered list of length N iff N ≥ 2 sibling
children share that cleaned tag (the list being their values in
document order); a tag occurring exactly once yields its bare
scalar/record value, never a singleton list; a tag occurring zero times
yields no field. -/
theorem C2_list_iff_repeated_tag (tag : String) (attrib : List (String × String))
    (children : List XmlElement) (text : String) (key : String)
    (hattr : key ∉ attrib.map Prod.fst) (htext : key ≠ "_text") :
    (∀ xs, getField (parse_xml_to_dict (XmlElement.elem tag attrib children text)) key
        = some (SSV.list xs) →
        xs = childVals key children ∧ 2 ≤ (childVals key children).length) ∧
    (2 ≤ (childVals key children).length →
      getField (parse_xml_to_dict (XmlElement.elem tag attrib children text)) key
        = some (SSV.list (childVals key children))) ∧
    ((childVals key children).length = 1 →
      ∃ v, getField (parse_xml_to_dict (XmlElement.elem tag attrib children text)) key
        = some v ∧ v.isList = false) ∧
    ((childVals key children).length = 0 →
      getField (parse_xml_to_dict (XmlElement.elem tag attrib children text)) key = none) := by
  have hmain := getField_parse tag attrib children text key hattr htext
  have hnl : ∀ v ∈ childVals key children, v.isList = false := by
    intro v hv
    unfold childVals at hv
    obtain ⟨c, _, rfl⟩ := List.mem_map.mp hv
    exact parse_not_list c
  rw [combineVals_none _ hnl] at hmain
  rcases hvs : childVals key children with _ | ⟨v, _ | ⟨w, r⟩⟩ <;>
      rw [hvs] at hmain hnl <;> simp only [coalesced] at hmain
  · refine ⟨?_, ?_, ?_, ?_⟩
    · intro xs h
      rw [hmain] at h
      exact absurd h (by simp)
    · intro h
      simp at h
    · intro h
      simp at h
    · intro _
      exact hmain
  · refine ⟨?_, ?_, ?_, ?_⟩
    · intro xs h
      rw [hmain] at h
      have hv : v = SSV.list xs := by simpa using h
      have hv2 := hnl v (by simp)
      rw [hv] at hv2
      simp [SSV.isList] at hv2
    · intro h
      simp at h
    · intro _
      exact ⟨v, hmain, hnl v (by simp)⟩
    · intro h
      simp at h
  · refine ⟨?_, ?_, ?_, ?_⟩
    · intro xs h
      rw [hmain] at h
      have hx : xs = v :: w :: r := (SSV.list.inj (Option.some.inj h)).symm
      exact ⟨hx, by simp⟩
    · intro _
      exact hmain
    · intro h
      simp at h
    · intro h
      simp at h

/-- Closed instance of the amended C2 theorem: a parent with attribute
`x` and two `q` children; the `q` field is the two children's values as
a list, in order. -/
theorem C2_list_iff_repeated_tag_witness :
    ("q" ∉ ([("x", "1")] : List (String × String)).map Prod.fst) ∧
    getField (parse_xml_to_dict (XmlElement.elem "r" [("x", "1")]
        [XmlElement.elem "q" [] [] "a", XmlElement.elem "q" [] [] "b"] "")) "q" =
      some (SSV.list (childVals "q"
        [XmlElement.elem "q" [] [] "a", XmlElement.elem "q" [] [] "b"])) :=
  ⟨by decide,
   (C2_list_iff_repeated_tag "r" [("x", "1")]
      [XmlElement.elem "q" [] [] "a", XmlElement.elem "q" [] [] "b"] "" "q"
      (by decide) (by decide)).2.1 (by decide)⟩

/-- Claim C7: text handling of the normalizer.  With `fs` the record
built from attributes and children: non-blank stripped text is stored
under `_text` when `fs` has fields, replaces the whole value (a bare
scalar, the empty record discarded) when it has none, and blank or
absent text leaves the record exactly as built (no `_text`, no scalar
replacement). -/
theorem C7_text_handling (tag : String) (attrib : List (String × String))
    (children : List XmlElement) (text : String) :
    (pyStrip text ≠ "" → nodeFields attrib children ≠ [] →
        parse_xml_to_dict (XmlElement.elem tag attrib children text) =
          SSV.record (setA (nodeFields attrib children) "_text"
            (SSV.scalar (pyStrip text)))) ∧
    (pyStrip text ≠ "" → nodeFields attrib children = [] →
        parse_xml_to_dict (XmlElement.elem tag attrib children text) =
          SSV.scalar (pyStrip text)) ∧
    (pyStrip text = "" →
        parse_xml_to_dict (XmlElement.elem tag attrib children text) =
          SSV.record (nodeFields attrib children)) := by
  refine ⟨?_, ?_, ?_⟩
  · intro ht hf
    rw [parse_elem_def, if_neg ht]
    cases heq : nodeFields attrib children with
    | nil => exact absurd heq hf
    | cons f fs => rfl
  · intro ht hf
    rw [parse_elem_def, if_neg ht, hf]
  · intro ht
    rw [parse_elem_def, if_pos ht]

/-- Closed instance of C7: an element with one attribute and text gets a
trailing `_text` field; one with only text collapses to a scalar; one
with blank text keeps its record untouched. -/
theorem C7_text_handling_witness :
    parse_xml_to_dict (XmlElement.elem "a" [("k", "v")] [] "  hi  ") =
      SSV.record (setA (nodeFields [("k", "v")] []) "_text" (SSV.scalar (pyStrip "  hi  "))) ∧
    parse_xml_to_dict (XmlElement.elem "a" [] [] "  hi  ") =
      SSV.scalar (pyStrip "  hi  ") ∧
    parse_xml_to_dict (XmlElement.elem "a" [("k", "v")] [] " ") =
      SSV.record (nodeFields [("k", "v")] []) :=
  ⟨(C7_text_handling "a" [("k", "v")] [] "  hi  ").1 (by decide) (List.cons_ne_nil _ _),
   (C7_text_handling "a" [] [] "  hi  ").2.1 (by decide) rfl,
   (C7_text_handling "a" [("k", "v")] [] " ").2.2 (by decide)⟩

/-- Claim C1 is contradicted by the code: `load_json_file` swallows every
failure to locate or parse the companion document and returns `{}`, so
`load_shared_rules` completes its `try` block normally and leaves the
registry EMPTY — the documented fallback list (whose comment says it is
for a missing file) is only installed when rule collection itself
raises, e.g. when `sharedRules` is a string containing `"rule"`. -/
theorem C1_missing_registry_file_leaves_registry_empty :
    load_shared_rules none = [] ∧
    load_shared_rules none ≠ default_shared_rules ∧
    load_shared_rules (some (SSV.record [("sharedRules", SSV.scalar "a rule")])) =
      default_shared_rules :=
  ⟨rfl, by decide, rfl⟩

theorem ebind_eq_ok {α β : Type} {x : Except String α} {f : α → Except String β}
    {b : β} : ebind x f = Except.ok b ↔ ∃ a, x = Except.ok a ∧ f a = Except.ok b := by
  cases x <;> simp [ebind]

theorem efoldl_inv {α σ : Type} (P : σ → Prop) (f : σ → α → Except String σ)
    (hf : ∀ s a s1, f s a = Except.ok s1 → P s → P s1) :
    ∀ (l : List α) (s s1 : σ), efoldl f s l = Except.ok s1 → P s → P s1 := by
  intro l
  induction l with
  | nil =>
      intro s s1 h hp
      simp only [efoldl, Except.ok.injEq] at h
      rwa [← h]
  | cons a l ih =>
      intro s s1 h hp
      simp only [efoldl] at h
      rcases ebind_eq_ok.mp h with ⟨s2, hfa, hrest⟩
      exact ih s2 s1 hrest (hf s a s2 hfa hp)

theorem abInv_init (reg : List String) : AbInv reg initAbilities := by
  refine ⟨?_, ?_, rfl, rfl, rfl, rfl, rfl, rfl⟩ <;> simp [initAbilities]

theorem classify_rule_inv (reg : List String) (st : AbilitySet) (rn : SSV)
    (st1 : AbilitySet) (h : classify_rule reg st rn = Except.ok st1)
    (hp : AbInv reg st) : AbInv reg st1 := by
  obtain ⟨h1, h2, h3, h4, h5, h6, h7, h8⟩ := hp
  cases rn with
  | scalar s =>
      simp only [classify_rule] at h
      by_cases hm : s ∈ reg
      · rw [if_pos hm] at h
        obtain rfl := Except.ok.inj h
        refine ⟨?_, h2, h3, h4, h5, h6, h7, h8⟩
        intro n hn
        rcases List.mem_append.mp hn with hn | hn
        · exact h1 n hn
        · rwa [List.mem_singleton.mp hn]
      · rw [if_neg hm] at h
        obtain rfl := Except.ok.inj h
        refine ⟨h1, ?_, h3, h4, h5, h6, h7, h8⟩
        intro o ho
        rcases List.mem_append.mp ho with ho | ho
        · exact h2 o ho
        · rw [List.mem_singleton.mp ho]
          exact hm
  | record fs => exact absurd h (by simp [classify_rule])
  | list xs => exact absurd h (by simp [classify_rule])

theorem process_info_link_inv (reg : List String) (st : AbilitySet) (il : SSV)
    (st1 : AbilitySet) (h : process_info_link reg st il = Except.ok st1)
    (hp : AbInv reg st) : AbInv reg st1 := by
  unfold process_info_link at h
  rcases ebind_eq_ok.mp h with ⟨rn, _, hc⟩
  exact classify_rule_inv reg st rn st1 hc hp

theorem classify_ability_inv (reg : List String) (st : AbilitySet)
    (r : Option (SSV × SSV)) (st1 : AbilitySet)
    (h : classify_ability reg st r = Except.ok st1) (hp : AbInv reg st) :
    AbInv reg st1 := by
  obtain ⟨h1, h2, h3, h4, h5, h6, h7, h8⟩ := hp
  match r with
  | none =>
      unfold classify_ability at h
      obtain rfl := Except.ok.inj h
      exact ⟨h1, h2, h3, h4, h5, h6, h7, h8⟩
  | some (an, ad) =>
      cases an with
      | scalar s =>
          simp only [classify_ability] at h
          by_cases hm : s ∈ reg
          · rw [if_pos hm] at h
            obtain rfl := Except.ok.inj h
            refine ⟨?_, h2, h3, h4, h5, h6, h7, h8⟩
            intro n hn
            rcases List.mem_append.mp hn with hn | hn
            · exact h1 n hn
            · rwa [List.mem_singleton.mp hn]
          · rw [if_neg hm] at h
            obtain rfl := Except.ok.inj h
            refine ⟨h1, ?_, h3, h4, h5, h6, h7, h8⟩
            intro o ho
            rcases List.mem_append.mp ho with ho | ho
            · exact h2 o ho
            · rw [List.mem_singleton.mp ho]
              exact hm
      | record fs => exact absurd h (by simp [classify_ability])
      | list xs => exact absurd h (by simp [classify_ability])

theorem process_ability_char_inv (reg : List String) (profile : SSV)
    (st : AbilitySet) (c : SSV) (st1 : AbilitySet)
    (h : process_ability_char reg profile st c = Except.ok st1)
    (hp : AbInv reg st) : AbInv reg st1 := by
  unfold process_ability_char at h
  rcases ebind_eq_ok.mp h with ⟨r, _, hc⟩
  exact classify_ability_inv reg st r st1 hc hp

theorem process_ability_profile_inv (reg : List String) (st : AbilitySet)
    (profile : SSV) (st1 : AbilitySet)
    (h : process_ability_profile reg st profile = Except.ok st1)
    (hp : AbInv reg st) : AbInv reg st1 := by
  unfold process_ability_profile at h
  rcases ebind_eq_ok.mp h with ⟨tid, _, h⟩
  split at h
  · rename_i s
    split at h
    · split at h
      · obtain rfl := Except.ok.inj h
        exact hp
      · rcases ebind_eq_ok.mp h with ⟨chs, _, h⟩
        split at h
        · obtain rfl := Except.ok.inj h
          exact hp
        · rcases ebind_eq_ok.mp h with ⟨ch, _, h⟩
          split at h
          · exact efoldl_inv (AbInv reg) (process_ability_char reg profile)
              (fun s a s2 hh hpp => process_ability_char_inv reg profile s a s2 hh hpp)
              _ st st1 h hp
          · exact process_ability_char_inv reg profile st _ st1 h hp
    · obtain rfl := Except.ok.inj h
      exact hp
  · obtain rfl := Except.ok.inj h
    exact hp

theorem process_info_links_section_inv (reg : List String) (st : AbilitySet)
    (entry : SSV) (st1 : AbilitySet)
    (h : process_info_links_section reg st entry = Except.ok st1)
    (hp : AbInv reg st) : AbInv reg st1 := by
  unfold process_info_links_section at h
  split at h
  · obtain rfl := Except.ok.inj h
    exact hp
  · rcases ebind_eq_ok.mp h with ⟨links, _, h⟩
    split at h
    · obtain rfl := Except.ok.inj h
      exact hp
    · rcases ebind_eq_ok.mp h with ⟨v, _, h⟩
      exact efoldl_inv (AbInv reg) (process_info_link reg)
        (fun s a s2 hh hpp => process_info_link_inv reg s a s2 hh hpp)
        _ st st1 h hp

theorem process_profiles_section_inv (reg : List String) (st : AbilitySet)
    (entry : SSV) (st1 : AbilitySet)
    (h : process_profiles_section reg st entry = Except.ok st1)
    (hp : AbInv reg st) : AbInv reg st1 := by
  unfold process_profiles_section at h
  split at h
  · obtain rfl := Except.ok.inj h
    exact hp
  · rcases ebind_eq_ok.mp h with ⟨profiles, _, h⟩
    split at h
    · obtain rfl := Except.ok.inj h
      exact hp
    · rcases ebind_eq_ok.mp h with ⟨pv, _, h⟩
      exact efoldl_inv (AbInv reg) (process_ability_profile reg)
        (fun s a s2 hh hpp => process_ability_profile_inv reg s a s2 hh hpp)
        _ st st1 h hp

/-- Every successful run of `extract_abilities` satisfies the partition
and constant-field invariant. -/
theorem extract_abilities_inv (reg : List String) (entry : SSV) (a : AbilitySet)
    (h : extract_abilities reg entry = Except.ok a) : AbInv reg a := by
  unfold extract_abilities at h
  rcases ebind_eq_ok.mp h with ⟨st, hs, hp⟩
  exact process_profiles_section_inv reg st entry a hp
    (process_info_links_section_inv reg initAbilities entry st hs (abInv_init reg))

theorem core_of_append (reg : List String) (l1 l2 : List (String × SSV × Bool)) :
    core_of reg (l1 ++ l2) = core_of reg l1 ++ core_of reg l2 := by
  induction l1 with
  | nil => rfl
  | cons p ps ih => simp [core_of, ih]

theorem other_of_append (reg : List String) (l1 l2 : List (String × SSV × Bool)) :
    other_of reg (l1 ++ l2) = other_of reg l1 ++ other_of reg l2 := by
  induction l1 with
  | nil => rfl
  | cons p ps ih => simp [other_of, ih]

theorem abRun_init (reg : List String) : AbRun reg initAbilities :=
  ⟨[], rfl, rfl⟩

theorem abRun_add (reg : List String) (st : AbilitySet) (s : String) (d : SSV)
    (b : Bool) (hr : AbRun reg st) :
    AbRun reg { st with
      core := st.core ++ (if s ∈ reg then [s] else []),
      other := st.other ++ (if s ∈ reg then [] else
        [{ name := s, description := d, showAbility := true, showDescription := b }]) } := by
  obtain ⟨prods, hc, ho⟩ := hr
  refine ⟨prods ++ [(s, d, b)], ?_, ?_⟩
  · rw [core_of_append, hc]
    simp [core_of]
  · rw [other_of_append, ho]
    simp [other_of]

theorem classify_rule_run (reg : List String) (st : AbilitySet) (rn : SSV)
    (st1 : AbilitySet) (h : classify_rule reg st rn = Except.ok st1)
    (hr : AbRun reg st) : AbRun reg st1 := by
  cases rn with
  | scalar s =>
      simp only [classify_rule] at h
      have := abRun_add reg st s (SSV.scalar "") false hr
      by_cases hm : s ∈ reg
      · rw [if_pos hm] at h
        obtain rfl := Except.ok.inj h
        simpa [hm] using this
      · rw [if_neg hm] at h
        obtain rfl := Except.ok.inj h
        simpa [hm] using this
  | record fs => exact absurd h (by simp [classify_rule])
  | list xs => exact absurd h (by simp [classify_rule])

theorem classify_ability_run (reg : List String) (st : AbilitySet)
    (r : Option (SSV × SSV)) (st1 : AbilitySet)
    (h : classify_ability reg st r = Except.ok st1) (hr : AbRun reg st) :
    AbRun reg st1 := by
  match r with
  | none =>
      unfold classify_ability at h
      obtain rfl := Except.ok.inj h
      exact hr
  | some (an, ad) =>
      cases an with
      | scalar s =>
          simp only [classify_ability] at h
          have := abRun_add reg st s ad true hr
          by_cases hm : s ∈ reg
          · rw [if_pos hm] at h
            obtain rfl := Except.ok.inj h
            simpa [hm] using this
          · rw [if_neg hm] at h
            obtain rfl := Except.ok.inj h
            simpa [hm] using this
      | record fs => exact absurd h (by simp [classify_ability])
      | list xs => exact absurd h (by simp [classify_ability])

theorem process_info_link_run (reg : List String) (st : AbilitySet) (il : SSV)
    (st1 : AbilitySet) (h : process_info_link reg st il = Except.ok st1)
    (hr : AbRun reg st) : AbRun reg st1 := by
  unfold process_info_link at h
  rcases ebind_eq_ok.mp h with ⟨rn, _, hc⟩
  exact classify_rule_run reg st rn st1 hc hr

theorem process_ability_char_run (reg : List String) (profile : SSV)
    (st : AbilitySet) (c : SSV) (st1 : AbilitySet)
    (h : process_ability_char reg profile st c = Except.ok st1)
    (hr : AbRun reg st) : AbRun reg st1 := by
  unfold process_ability_char at h
  rcases ebind_eq_ok.mp h with ⟨r, _, hc⟩
  exact classify_ability_run reg st r st1 hc hr

theorem process_ability_profile_run (reg : List String) (st : AbilitySet)
    (profile : SSV) (st1 : AbilitySet)
    (h : process_ability_profile reg st profile = Except.ok st1)
    (hr : AbRun reg st) : AbRun reg st1 := by
  unfold process_ability_profile at h
  rcases ebind_eq_ok.mp h with ⟨tid, _, h⟩
  split at h
  · split at h
    · split at h
      · obtain rfl := Except.ok.inj h
        exact hr
      · rcases ebind_eq_ok.mp h with ⟨chs, _, h⟩
        split at h
        · obtain rfl := Except.ok.inj h
          exact hr
        · rcases ebind_eq_ok.mp h with ⟨ch, _, h⟩
          split at h
          · exact efoldl_inv (AbRun reg) (process_ability_char reg profile)
              (fun s a s2 hh hpp => process_ability_char_run reg profile s a s2 hh hpp)
              _ st st1 h hr
          · exact process_ability_char_run reg profile st _ st1 h hr
    · obtain rfl := Except.ok.inj h
      exact hr
  · obtain rfl := Except.ok.inj h
    exact hr

theorem extract_abilities_run (reg : List String) (entry : SSV) (a : AbilitySet)
    (h : extract_abilities reg entry = Except.ok a) : AbRun reg a := by
  unfold extract_abilities at h
  rcases ebind_eq_ok.mp h with ⟨st, hs, hp⟩
  have h1 : AbRun reg st := by
    unfold process_info_links_section at hs
    split at hs
    · obtain rfl := Except.ok.inj hs
      exact abRun_init reg
    · rcases ebind_eq_ok.mp hs with ⟨links, _, hs⟩
      split at hs
      · obtain rfl := Except.ok.inj hs
        exact abRun_init reg
      · rcases ebind_eq_ok.mp hs with ⟨v, _, hs⟩
        exact efoldl_inv (AbRun reg) (process_info_link reg)
          (fun s a2 s2 hh hpp => process_info_link_run reg s a2 s2 hh hpp)
          _ initAbilities st hs (abRun_init reg)
  unfold process_profiles_section at hp
  split at hp
  · obtain rfl := Except.ok.inj hp
    exact h1
  · rcases ebind_eq_ok.mp hp with ⟨profiles, _, hp⟩
    split at hp
    · obtain rfl := Except.ok.inj hp
      exact h1
    · rcases ebind_eq_ok.mp hp with ⟨pv, _, hp⟩
      exact efoldl_inv (AbRun reg) (process_ability_profile reg)
        (fun s a2 s2 hh hpp => process_ability_profile_run reg s a2 s2 hh hpp)
        _ st a hp h1

/-- Claim C4: on every successful extraction the two ability buckets
are the two registry-membership projections of one ordered list of
produced `(name, description, showDescription)` triples — every
produced name inside the registry appears in `core` (name only) and
contributes nothing to `other`, every produced name outside it appears
in `other` as a full record and never in `core`; in particular `core`
holds registry members only and no `other` record bears a registry
name. -/
theorem C4_registry_partitions_abilities (reg : List String) (entry : SSV)
    (a : AbilitySet) (h : extract_abilities reg entry = Except.ok a) :
    (∀ n ∈ a.core, n ∈ reg) ∧ (∀ o ∈ a.other, o.name ∉ reg) ∧
    (∃ prods : List (String × SSV × Bool),
        a.core = core_of reg prods ∧ a.other = other_of reg prods) :=
  ⟨(extract_abilities_inv reg entry a h).1, (extract_abilities_inv reg entry a h).2.1,
   extract_abilities_run reg entry a h⟩

theorem C4_registry_partitions_abilities_witness :
    extract_abilities ["Leader"] c4_entry = Except.ok c4_abilities ∧
    ((∀ n ∈ c4_abilities.core, n ∈ ["Leader"]) ∧
     (∀ o ∈ c4_abilities.other, o.name ∉ ["Leader"]) ∧
     (∃ prods : List (String × SSV × Bool),
        c4_abilities.core = core_of ["Leader"] prods ∧
        c4_abilities.other = other_of ["Leader"] prods)) :=
  ⟨rfl, C4_registry_partitions_abilities ["Leader"] c4_entry c4_abilities rfl⟩

/-- Claim C10: the constant blocks of every successfully extracted
ability set are input-independent — faction is exactly
`["Oath of Moment"]`, the invulnerable block is `5+` with
`showInvulnerableSave` true and `showInfo` false, and the damaged block
has empty description and range with `showDamagedAbility` false. -/
theorem C10_constant_ability_fields (reg : List String) (entry : SSV)
    (a : AbilitySet) (h : extract_abilities reg entry = Except.ok a) :
    a.faction = ["Oath of Moment"] ∧
    a.invul = { info := "", showAtTop := true, showInfo := false,
                showInvulnerableSave := true, value := "5+" } ∧
    a.damaged = { description := "", range := "", showDamagedAbility := false,
                  showDescription := true } := by
  obtain ⟨_, _, h3, _, _, _, h7, h8⟩ := extract_abilities_inv reg entry a h
  exact ⟨h3, h8, h7⟩

theorem C10_constant_ability_fields_witness :
    extract_abilities ["Leader"] c4_entry = Except.ok c4_abilities ∧
    (c4_abilities.faction = ["Oath of Moment"] ∧
     c4_abilities.invul = { info := "", showAtTop := true, showInfo := false,
                            showInvulnerableSave := true, value := "5+" } ∧
     c4_abilities.damaged = { description := "", range := "",
                              showDamagedAbility := false, showDescription := true }) :=
  ⟨rfl, C10_constant_ability_fields ["Leader"] c4_entry c4_abilities rfl⟩

theorem apply_modifier_mk (b : String) (m : String × String × String) :
    apply_modifier (SSV.scalar b) (mk_modifier m) =
      Except.ok (SSV.scalar (b ++ (if m.1 = "append" ∧ m.2.1 = "name" then m.2.2 else ""))) := by
  obtain ⟨t, f, v⟩ := m
  by_cases ht : t = "append" <;> by_cases hf : f = "name" <;>
    simp [apply_modifier, mk_modifier, pyGetOpt, pyGet, lookupA, ebind, ht, hf,
          String.append_empty]

theorem efoldl_apply_modifier (ms : List (String × String × String)) (b : String) :
    efoldl apply_modifier (SSV.scalar b) (ms.map mk_modifier) =
      Except.ok (SSV.scalar (b ++ appended_values ms)) := by
  induction ms generalizing b with
  | nil => simp [efoldl, appended_values, String.append_empty]
  | cons m ms ih =>
      simp only [List.map_cons, efoldl, apply_modifier_mk, ebind, ih, appended_values,
                 String.append_assoc]

/-- Claim C3: for an infoLink with base name `base` and an ordered list
of modifiers, `extract_abilities` concatenates onto `base`, in order,
the value of every modifier of type `append` on field `name` (ignoring
all others), and classifies the entry against the registry using the
synthesized name: it lands in `core` iff the synthesized name is
registered, else in `other`, in both cases under the synthesized — not
the base — name. -/
theorem C3_append_modifiers_synthesize_name (reg : List String) (base : String)
    (ms : List (String × String × String)) :
    extract_abilities reg (c3_entry base ms) = Except.ok
      { initAbilities with
        core := if base ++ appended_values ms ∈ reg
                then [base ++ appended_values ms] else [],
        other := if base ++ appended_values ms ∈ reg then []
                 else [{ name := base ++ appended_values ms,
                         description := SSV.scalar "", showAbility := true,
                         showDescription := false }] } := by
  have h1 : extract_abilities reg (c3_entry base ms) =
      ebind (ebind (ebind (efoldl apply_modifier (SSV.scalar base) (ms.map mk_modifier))
            (classify_rule reg initAbilities))
          (fun s1 => efoldl (process_info_link reg) s1 []))
        (fun st => process_profiles_section reg st (c3_entry base ms)) := rfl
  have h2 : ∀ st, process_profiles_section reg st (c3_entry base ms) = Except.ok st :=
    fun st => rfl
  rw [h1, efoldl_apply_modifier]
  by_cases hm : base ++ appended_values ms ∈ reg
  · simp [ebind, classify_rule, hm, h2, efoldl, initAbilities]
  · simp [ebind, classify_rule, hm, h2, efoldl, initAbilities]

theorem getField_of_pyGetOpt (e : SSV) (k : String) (t : Option SSV)
    (h : pyGetOpt e k = Except.ok t) : getField e k = t := by
  cases e with
  | record fs => simpa [pyGetOpt, getField] using h
  | scalar s => exact absurd h (by simp [pyGetOpt])
  | list xs => exact absurd h (by simp [pyGetOpt])

/-- Claim C5: `extract_datasheet` produces a datasheet only when the
entry's `type` attribute is the string `"model"` (and returns `None`
otherwise), `extract_enhancements` produces an enhancement only when it
is `"upgrade"`, and an entry whose `type` is neither yields `None` from
both. -/
theorem C5_type_tag_discrimination (reg : List String) (fid : String) (e : SSV) :
    (∀ d, extract_datasheet reg fid e = Except.ok (some d) →
        getField e "type" = some (SSV.scalar "model")) ∧
    (∀ en, extract_enhancements fid e = Except.ok (some en) →
        getField e "type" = some (SSV.scalar "upgrade")) ∧
    (∀ t, pyGetOpt e "type" = Except.ok t →
        t ≠ some (SSV.scalar "model") → t ≠ some (SSV.scalar "upgrade") →
        extract_datasheet reg fid e = Except.ok none ∧
        extract_enhancements fid e = Except.ok none) := by
  refine ⟨?_, ?_, ?_⟩
  · intro d h
    unfold extract_datasheet at h
    rcases ebind_eq_ok.mp h with ⟨t, ht, h⟩
    rw [getField_of_pyGetOpt e "type" t ht]
    split at h
    · rename_i s
      split at h
      · rename_i hs
        rw [hs]
      · exact absurd (Except.ok.inj h) (by simp)
    · exact absurd (Except.ok.inj h) (by simp)
  · intro en h
    unfold extract_enhancements at h
    rcases ebind_eq_ok.mp h with ⟨t, ht, h⟩
    rw [getField_of_pyGetOpt e "type" t ht]
    split at h
    · rename_i s
      split at h
      · rename_i hs
        rw [hs]
      · exact absurd (Except.ok.inj h) (by simp)
    · exact absurd (Except.ok.inj h) (by simp)
  · intro t ht hm hu
    constructor
    · unfold extract_datasheet
      rw [ht]
      simp only [ebind]
      split
      · rename_i s
        split
        · rename_i hs
          exact absurd (by rw [hs]) hm
        · rfl
      · rfl
    · unfold extract_enhancements
      rw [ht]
      simp only [ebind]
      split
      · rename_i s
        split
        · rename_i hs
          exact absurd (by rw [hs]) hu
        · rfl
      · rfl

/-- Closed instance of C5: an entry typed `"other"` produces neither a
datasheet nor an enhancement. -/
theorem C5_type_tag_discrimination_witness :
    extract_datasheet [] "u" (SSV.record [("type", SSV.scalar "other")]) =
      Except.ok none ∧
    extract_enhancements "u" (SSV.record [("type", SSV.scalar "other")]) =
      Except.ok none :=
  (C5_type_tag_discrimination [] "u" (SSV.record [("type", SSV.scalar "other")])).2.2
    (some (SSV.scalar "other")) rfl (by simp) (by simp)

theorem point_of_cost_inv (acc : List PointRow) (cost : SSV) (acc1 : List PointRow)
    (h : point_of_cost acc cost = Except.ok acc1)
    (hp : ∀ p ∈ acc, p.name = "model" ∧ p.model = "1") :
    ∀ p ∈ acc1, p.name = "model" ∧ p.model = "1" := by
  unfold point_of_cost at h
  rcases ebind_eq_ok.mp h with ⟨n, _, h⟩
  split at h
  · rename_i s
    split at h
    · rcases ebind_eq_ok.mp h with ⟨v, _, h⟩
      obtain rfl := Except.ok.inj h
      intro p hmem
      rcases List.mem_append.mp hmem with hmem | hmem
      · exact hp p hmem
      · rw [List.mem_singleton.mp hmem]
        exact ⟨rfl, rfl⟩
    · obtain rfl := Except.ok.inj h
      exact hp
  · obtain rfl := Except.ok.inj h
    exact hp

/-- Claim C8: every row `extract_points` emits has name `"model"` and
model count `"1"` (the cost value riding along as text), and the
scenario entry — a model with a single `pts=100` cost — yields a
datasheet whose points are exactly that one row, with empty stats and
ranged weapons. -/
theorem C8_points_extraction :
    (∀ (e : SSV) (ps : List PointRow), extract_points e = Except.ok ps →
        ∀ p ∈ ps, p.name = "model" ∧ p.model = "1") ∧
    (∀ (reg : List String) (fid : String),
        extract_datasheet reg fid c8_entry = Except.ok (some (c8_datasheet fid))) := by
  constructor
  · intro e ps h
    unfold extract_points at h
    split at h
    · obtain rfl := Except.ok.inj h
      intro p hp
      exact absurd hp (by simp)
    · rcases ebind_eq_ok.mp h with ⟨costs, _, h⟩
      split at h
      · obtain rfl := Except.ok.inj h
        intro p hp
        exact absurd hp (by simp)
      · rcases ebind_eq_ok.mp h with ⟨cv, _, h⟩
        exact efoldl_inv (fun acc => ∀ p ∈ acc, p.name = "model" ∧ p.model = "1")
          point_of_cost point_of_cost_inv _ [] ps h (by simp)
  · intro reg fid
    rfl

theorem C8_points_extraction_witness :
    extract_points c8_entry =
      Except.ok [{ name := "model", model := "1", cost := SSV.scalar "100" }] ∧
    (∀ p ∈ [({ name := "model", model := "1", cost := SSV.scalar "100" } : PointRow)],
        p.name = "model" ∧ p.model = "1") :=
  ⟨rfl, C8_points_extraction.1 c8_entry _ rfl⟩

theorem build_stat_some (profile : SSV) (st : StatRow)
    (h : build_stat profile = Except.ok (some st)) : pyTruthy st.name = true := by
  unfold build_stat at h
  rcases ebind_eq_ok.mp h with ⟨tid, _, h⟩
  split at h
  · rename_i s
    split at h
    · rcases ebind_eq_ok.mp h with ⟨nm, _, h⟩
      rcases ebind_eq_ok.mp h with ⟨st2, _, h⟩
      have h2 := Except.ok.inj h
      split at h2
      · rename_i htr
        obtain rfl := Option.some.inj h2
        exact htr
      · exact absurd h2 (by simp)
    · exact absurd (Except.ok.inj h) (by simp)
  · exact absurd (Except.ok.inj h) (by simp)

/-- Claim C9: (1) a selection entry missing any of the optional
`infoLinks` / `profiles` / `costs` / `categoryLinks` /
`selectionEntries` sections extracts without an exception, every output
taking its documented default (the constant ability block, empty
lists); (2) every stat row kept by `extract_stats` has a truthy
(non-empty) resolved name; (3) a unit profile with no name resolves to
the empty default and its row is discarded, while (4) a named unit
profile without characteristics keeps its row, every characteristic
field simply absent. -/
theorem C9_missing_optional_fields_safe :
    (∀ (fs : List (String × SSV)) (reg : List String) (wt : String),
        lookupA fs "infoLinks" = none → lookupA fs "profiles" = none →
        lookupA fs "costs" = none → lookupA fs "categoryLinks" = none →
        lookupA fs "selectionEntries" = none →
        extract_abilities reg (SSV.record fs) = Except.ok initAbilities ∧
        extract_stats (SSV.record fs) = Except.ok [] ∧
        extract_weapons (SSV.record fs) wt = Except.ok [] ∧
        extract_keywords (SSV.record fs) = Except.ok [] ∧
        extract_points (SSV.record fs) = Except.ok []) ∧
    (∀ (e : SSV) (sts : List StatRow), extract_stats e = Except.ok sts →
        ∀ st ∈ sts, pyTruthy st.name = true) ∧
    extract_stats c9_unnamed_entry = Except.ok [] ∧
    extract_stats c9_bare_entry = Except.ok
      [{ active := true, name := SSV.scalar "Tactical", showName := false,
         showDamagedMarker := false }] := by
  refine ⟨?_, ?_, rfl, rfl⟩
  · intro fs reg wt h1 h2 h3 h4 h5
    have hfk : ∀ k, lookupA fs k = none → find_key (SSV.record fs) k = none := by
      intro k hk
      simp [find_key, pyContains, hk]
    refine ⟨?_, ?_, ?_, ?_, ?_⟩
    · unfold extract_abilities process_info_links_section process_profiles_section
      rw [hfk _ h1, hfk _ h2]
      rfl
    · unfold extract_stats
      rw [hfk _ h2]
    · unfold extract_weapons
      rw [hfk _ h5]
    · unfold extract_keywords
      rw [hfk _ h4]
    · unfold extract_points
      rw [hfk _ h3]
  · intro e sts h
    unfold extract_stats at h
    split at h
    · obtain rfl := Except.ok.inj h
      intro st hst
      exact absurd hst (by simp)
    · rcases ebind_eq_ok.mp h with ⟨profiles, _, h⟩
      split at h
      · obtain rfl := Except.ok.inj h
        intro st hst
        exact absurd hst (by simp)
      · rcases ebind_eq_ok.mp h with ⟨pv, _, h⟩
        refine efoldl_inv (fun acc => ∀ st ∈ acc, pyTruthy st.name = true)
          _ ?_ _ [] sts h (by simp)
        intro acc profile acc1 hstep hacc
        rcases ebind_eq_ok.mp hstep with ⟨r, hr, hk⟩
        obtain rfl := Except.ok.inj hk
        match r, hr with
        | none, hr =>
            exact hacc
        | some st2, hr =>
            intro st hst
            rcases List.mem_append.mp hst with hst | hst
            · exact hacc st hst
            · rw [List.mem_singleton.mp hst]
              exact build_stat_some profile st2 hr

theorem C9_missing_optional_fields_safe_witness :
    (extract_abilities ["Leader"] (SSV.record [("type", SSV.scalar "model")]) =
        Except.ok initAbilities ∧
      extract_stats (SSV.record [("type", SSV.scalar "model")]) = Except.ok [] ∧
      extract_weapons (SSV.record [("type", SSV.scalar "model")]) "ranged" = Except.ok [] ∧
      extract_keywords (SSV.record [("type", SSV.scalar "model")]) = Except.ok [] ∧
      extract_points (SSV.record [("type", SSV.scalar "model")]) = Except.ok []) ∧
    (∀ st ∈ [({ active := true, name := SSV.scalar "Tactical", showName := false,
                showDamagedMarker := false } : StatRow)], pyTruthy st.name = true) :=
  ⟨C9_missing_optional_fields_safe.1 [("type", SSV.scalar "model")] ["Leader"] "ranged"
      rfl rfl rfl rfl rfl,
   C9_missing_optional_fields_safe.2.1 c9_bare_entry _ rfl⟩

theorem lookupA_eq_none_iff {α : Type} (l : List (String × α)) (k : String) :
    lookupA l k = none ↔ k ∉ l.map Prod.fst := by
  induction l with
  | nil => simp [lookupA]
  | cons p ps ih =>
      obtain ⟨k1, v⟩ := p
      by_cases h : k1 = k
      · subst h
        simp [lookupA]
      · simp [lookupA, h, ih, Ne.symm h]

theorem map_fst_updateA {α : Type} (l : List (String × α)) (k : String) (f : α → α) :
    (updateA l k f).map Prod.fst = l.map Prod.fst := by
  induction l with
  | nil => rfl
  | cons p ps ih =>
      obtain ⟨k1, v⟩ := p
      by_cases h : k1 = k <;> simp [updateA, h, ih]

theorem mem_updateA {α : Type} (l : List (String × α)) (k : String) (f : α → α)
    (p : String × α) (hp : p ∈ updateA l k f) :
    p ∈ l ∨ ∃ g, (k, g) ∈ l ∧ p = (k, f g) := by
  induction l with
  | nil => simp [updateA] at hp
  | cons q qs ih =>
      obtain ⟨k1, v⟩ := q
      by_cases h : k1 = k
      · subst h
        simp only [updateA, if_pos rfl] at hp
        rcases List.mem_cons.mp hp with hp | hp
        · exact Or.inr ⟨v, by simp, hp⟩
        · exact Or.inl (List.mem_cons_of_mem _ hp)
      · simp only [updateA, if_neg h] at hp
        rcases List.mem_cons.mp hp with hp | hp
        · exact Or.inl (by simp [hp])
        · rcases ih hp with hp | ⟨g, hg, hpe⟩
          · exact Or.inl (List.mem_cons_of_mem _ hp)
          · exact Or.inr ⟨g, List.mem_cons_of_mem _ hg, hpe⟩

theorem updateA_append_fresh {α : Type} (l : List (String × α)) (k : String)
    (g : α) (f : α → α) (h : k ∉ l.map Prod.fst) :
    updateA (l ++ [(k, g)]) k f = l ++ [(k, f g)] := by
  induction l with
  | nil => simp [updateA]
  | cons p ps ih =>
      obtain ⟨k1, v⟩ := p
      simp only [List.map_cons, List.mem_cons, not_or] at h
      have hne : ¬k1 = k := fun hh => h.1 hh.symm
      simp only [List.cons_append, updateA, if_neg hne]
      exact congrArg (List.cons (k1, v)) (ih h.2)

theorem dict_add_profile_inv (groups : List (String × WeaponGroup)) (n : String)
    (wp : WeaponProfile) (hname : wp.name = n) (hp : GroupInv groups) :
    GroupInv (dict_add_profile groups n wp) := by
  obtain ⟨hnd, hmem⟩ := hp
  unfold dict_add_profile
  cases hl : lookupA groups n with
  | some g0 =>
      simp only []
      constructor
      · rw [map_fst_updateA]
        exact hnd
      · intro p hpmem
        rcases mem_updateA _ _ _ p hpmem with hpmem | ⟨g, hg, rfl⟩
        · exact hmem p hpmem
        · refine ⟨by simp, ?_⟩
          intro q hq
          simp only [] at hq
          rcases List.mem_append.mp hq with hq | hq
          · exact (hmem (n, g) hg).2 q hq
          · rw [List.mem_singleton.mp hq, hname]
  | none =>
      have hfresh : n ∉ groups.map Prod.fst := (lookupA_eq_none_iff groups n).mp hl
      simp only []
      rw [updateA_append_fresh groups n _ _ hfresh]
      constructor
      · have hdisj : (groups.map Prod.fst).Disjoint [n] := by
          intro x hx hxn
          rw [List.mem_singleton.mp hxn] at hx
          exact hfresh hx
        rw [List.map_append]
        exact List.Nodup.append hnd (List.nodup_singleton n) hdisj
      · intro p hpmem
        rcases List.mem_append.mp hpmem with hpmem | hpmem
        · exact hmem p hpmem
        · rw [List.mem_singleton.mp hpmem]
          refine ⟨by simp, ?_⟩
          intro q hq
          simp only [List.nil_append, List.mem_singleton] at hq
          rw [hq, hname]

theorem weapon_char_name (wp : WeaponProfile) (c : SSV) (wp1 : WeaponProfile)
    (h : weapon_char wp c = Except.ok wp1) : wp1.name = wp.name := by
  unfold weapon_char at h
  rcases ebind_eq_ok.mp h with ⟨n, hn, h⟩
  clear hn
  repeat' split at h
  all_goals
    first
    | (obtain rfl := Except.ok.inj h; rfl)
    | (rcases ebind_eq_ok.mp h with ⟨v, hv, h⟩
       clear hv
       repeat' split at h
       all_goals
         first
         | (obtain rfl := Except.ok.inj h; rfl)
         | exact Except.noConfusion h)

theorem build_weapon_profile_name (wt : String) (profile : SSV) (n : String)
    (wp : WeaponProfile) (h : build_weapon_profile wt profile = Except.ok (some (n, wp))) :
    wp.name = n := by
  unfold build_weapon_profile at h
  rcases ebind_eq_ok.mp h with ⟨tid, _, h⟩
  split at h
  · rcases ebind_eq_ok.mp h with ⟨nv, _, h⟩
    cases nv with
    | scalar wname =>
        rcases ebind_eq_ok.mp h with ⟨wp2, hwp, h⟩
        have hh := Option.some.inj (Except.ok.inj h)
        injection hh with h1 h2
        have hwpn : wp2.name = wname := by
          split at hwp
          · obtain rfl := Except.ok.inj hwp
            rfl
          · rcases ebind_eq_ok.mp hwp with ⟨chs, _, hwp⟩
            split at hwp
            · obtain rfl := Except.ok.inj hwp
              rfl
            · rcases ebind_eq_ok.mp hwp with ⟨ch, _, hwp⟩
              split at hwp
              · refine efoldl_inv (fun w => w.name = wname) weapon_char ?_ _ _ _ hwp rfl
                intro s a s1 hh hpp
                rw [weapon_char_name s a s1 hh, hpp]
              · rw [weapon_char_name _ _ _ hwp]
        rw [← h2, hwpn, h1]
    | record fs => exact Except.noConfusion h
    | list xs => exact Except.noConfusion h
  · exact Option.noConfusion (Except.ok.inj h)

theorem process_weapon_profile_inv (wt : String) (groups : List (String × WeaponGroup))
    (profile : SSV) (groups1 : List (String × WeaponGroup))
    (h : process_weapon_profile wt groups profile = Except.ok groups1)
    (hp : GroupInv groups) : GroupInv groups1 := by
  unfold process_weapon_profile at h
  rcases ebind_eq_ok.mp h with ⟨r, hr, h⟩
  obtain rfl := Except.ok.inj h
  match r, hr with
  | none, hr => exact hp
  | some (n, wp), hr =>
      exact dict_add_profile_inv groups n wp (build_weapon_profile_name wt profile n wp hr) hp

theorem process_weapon_entry_inv (wt : String) (groups : List (String × WeaponGroup))
    (entry : SSV) (groups1 : List (String × WeaponGroup))
    (h : process_weapon_entry wt groups entry = Except.ok groups1)
    (hp : GroupInv groups) : GroupInv groups1 := by
  unfold process_weapon_entry at h
  split at h
  · obtain rfl := Except.ok.inj h
    exact hp
  · rcases ebind_eq_ok.mp h with ⟨profiles, _, h⟩
    split at h
    · obtain rfl := Except.ok.inj h
      exact hp
    · rcases ebind_eq_ok.mp h with ⟨pv, _, h⟩
      exact efoldl_inv GroupInv (process_weapon_profile wt)
        (fun s a s1 hh hpp => process_weapon_profile_inv wt s a s1 hh hpp)
        _ groups groups1 h hp

/-- Claim C6: (general part) every successful run of `extract_weapons`
returns the values of a name-keyed dict whose keys are pairwise
distinct, each group nonempty with every contained profile bearing the
group's resolved weapon name — so two profiles sharing a resolved name
can only inhabit the single group of that name; (scenario part) two
same-named ranged profiles in two different nested sub-selection
entries produce exactly one group holding both profiles in source
declaration order. -/
theorem C6_weapon_grouping :
    (∀ (e : SSV) (wt : String) (ws : List WeaponGroup),
        extract_weapons e wt = Except.ok ws →
        ∃ kg : List (String × WeaponGroup), ws = kg.map Prod.snd ∧
          (kg.map Prod.fst).Nodup ∧
          ∀ p ∈ kg, p.2.profiles ≠ [] ∧ ∀ q ∈ p.2.profiles, q.name = p.1) ∧
    (∀ n r1 r2, extract_weapons (c6_entry n r1 r2) "ranged" = Except.ok
        [{ active := true, profiles :=
            [{ active := true, name := n, range := some (SSV.scalar r1) },
             { active := true, name := n, range := some (SSV.scalar r2) }] }]) := by
  constructor
  · intro e wt ws h
    unfold extract_weapons at h
    split at h
    · obtain rfl := Except.ok.inj h
      exact ⟨[], rfl, by simp, by simp⟩
    · rcases ebind_eq_ok.mp h with ⟨se, _, h⟩
      split at h
      · obtain rfl := Except.ok.inj h
        exact ⟨[], rfl, by simp, by simp⟩
      · rcases ebind_eq_ok.mp h with ⟨ev, _, h⟩
        rcases ebind_eq_ok.mp h with ⟨groups, hg, h⟩
        obtain rfl := Except.ok.inj h
        have hinv : GroupInv groups := by
          refine efoldl_inv GroupInv (process_weapon_entry wt)
            (fun s a s1 hh hpp => process_weapon_entry_inv wt s a s1 hh hpp)
            _ [] groups hg ⟨by simp, by simp⟩
        exact ⟨groups, rfl, hinv.1, hinv.2⟩
  · intro n r1 r2
    have hstep : ∀ (groups : List (String × WeaponGroup)) (r : String),
        process_weapon_entry "ranged" groups (c6_sub n r) =
          Except.ok (dict_add_profile groups n
            { active := true, name := n, range := some (SSV.scalar r) }) :=
      fun groups r => rfl
    have hd1 : ∀ wp : WeaponProfile, dict_add_profile [] n wp =
        [(n, { active := true, profiles := [wp] })] := by
      intro wp
      simp [dict_add_profile, lookupA, updateA]
    have hd2 : ∀ (g : WeaponGroup) (wp : WeaponProfile),
        dict_add_profile [(n, g)] n wp =
          [(n, { g with profiles := g.profiles ++ [wp] })] := by
      intro g wp
      simp [dict_add_profile, lookupA, updateA]
    have hmain : extract_weapons (c6_entry n r1 r2) "ranged" =
        ebind (efoldl (process_weapon_entry "ranged") []
            [c6_sub n r1, c6_sub n r2])
          (fun groups => Except.ok (groups.map Prod.snd)) := rfl
    rw [hmain]
    simp only [efoldl, hstep, ebind, hd1, hd2]
    rfl

theorem C6_weapon_grouping_witness :
    extract_weapons (c6_entry "Bolt Rifle" "24" "12") "ranged" = Except.ok
      [{ active := true, profiles :=
          [{ active := true, name := "Bolt Rifle", range := some (SSV.scalar "24") },
           { active := true, name := "Bolt Rifle", range := some (SSV.scalar "12") }] }] ∧
    (∃ kg : List (String × WeaponGroup),
        ([{ active := true, profiles :=
            [{ active := true, name := "Bolt Rifle", range := some (SSV.scalar "24") },
             { active := true, name := "Bolt Rifle", range := some (SSV.scalar "12") }] }]
          : List WeaponGroup) = kg.map Prod.snd ∧
        (kg.map Prod.fst).Nodup ∧
        ∀ p ∈ kg, p.2.profiles ≠ [] ∧ ∀ q ∈ p.2.profiles, q.name = p.1) :=
  ⟨C6_weapon_grouping.2 "Bolt Rifle" "24" "12",
   C6_weapon_grouping.1 (c6_entry "Bolt Rifle" "24" "12") "ranged" _
     (C6_weapon_grouping.2 "Bolt Rifle" "24" "12")⟩
